import Mathlib

/-!
Verification of the layout placement engine and its validator
(`layout-engine.ts` / `layout-validator.ts`, shared layout template types).

Numbers: the TypeScript code computes with IEEE doubles; we embed the
arithmetic over `ℚ` (exact rationals).  The four transcendental library
calls (`Math.sqrt`, `Math.cos`, `Math.sin`, `Math.atan2`) have no exact
rational counterpart, so they are threaded through every definition as an
explicit `MathOracle` parameter; theorems assume only the properties of
the oracle they need, each satisfiable by a concrete rational oracle.
All other operations (`Math.abs`, `Math.min`, `Math.max`, `Math.round`,
`Math.floor`, `Math.ceil`) are exact on rationals and embedded directly.

`JSON.parse(JSON.stringify(_))` deep copies and in-place mutation are
modelled purely: functions return the post-state.  A JS runtime error
(the only one reachable: indexing `offsets[used % 0]` of a zero-offset
enemy hint) is modelled as `Option.none`.
-/

/-- The `Math` functions with no exact rational meaning, as an oracle. -/
structure MathOracle where
  sqrt : ℚ → ℚ
  cos : ℚ → ℚ
  sin : ℚ → ℚ
  atan2 : ℚ → ℚ → ℚ

/-- `{x, y, z}` vector (world coordinates, meters). -/
structure Vec3 where
  x : ℚ
  y : ℚ
  z : ℚ
deriving DecidableEq, Repr

/-- A 2-D world point as returned by `toWorld` (`{x, z}`). -/
structure Pt2 where
  x : ℚ
  z : ℚ
deriving DecidableEq, Repr

/-- A normalized template coordinate (`{nx, nz}`). -/
structure NPt where
  nx : ℚ
  nz : ℚ
deriving DecidableEq, Repr

/-- Asset dimensions from the engine's catalog (`{w, h, d}`). -/
structure Dims3 where
  w : ℚ
  h : ℚ
  d : ℚ
deriving DecidableEq, Repr

/-- `ASSET_DIMS` of `layout-engine.ts` (id → width × height × depth). -/
def ASSET_DIMS : String → Option Dims3
  | "kenney_block" => some ⟨1, 1, 1⟩
  | "kenney_bricks" => some ⟨1, 1/2, 1⟩
  | "kenney_column" => some ⟨1/2, 2, 1/2⟩
  | "kenney_column_damaged" => some ⟨1/2, 6/5, 1/2⟩
  | "kenney_wall_low" => some ⟨2, 1, 1/2⟩
  | "kenney_wall" => some ⟨2, 2, 2/5⟩
  | "kenney_wall_high" => some ⟨2, 17/10, 1/2⟩
  | "kenney_wall_gate" => some ⟨2, 2, 2/5⟩
  | "kenney_statue" => some ⟨4/5, 2, 4/5⟩
  | "kenney_banner" => some ⟨3/5, 2, 1/10⟩
  | "kenney_tree" => some ⟨3/2, 3, 3/2⟩
  | _ => none

/-- `transform` (position, rotation, scale). -/
structure Transform where
  position : Vec3
  rotation : Vec3
  scale : Vec3
deriving DecidableEq, Repr

/-- A primitive mesh spec (`{kind: "primitive", shape, size}`). -/
structure MeshSpec where
  shape : String
  size : Vec3
deriving DecidableEq, Repr

/-- Material (`{color, roughness, metalness}`). -/
structure Material where
  color : String
  roughness : ℚ
  metalness : ℚ
deriving DecidableEq, Repr

/-- Physics spec (`{bodyType, collider}`). -/
structure PhysicsSpec where
  bodyType : String
  collider : String
deriving DecidableEq, Repr

/-- `CoverObject` of the shared schema (fields the layout core touches). -/
structure CoverObject where
  id : String
  transform : Transform
  mesh : MeshSpec
  material : Material
  destructible : Bool
  assetId : Option String
deriving DecidableEq, Repr

/-- `Entity` of the shared schema (wall segments and decorations). -/
structure Entity where
  id : String
  name : String
  etype : String
  transform : Transform
  mesh : MeshSpec
  material : Material
  physics : Option PhysicsSpec
  assetId : Option String
deriving DecidableEq, Repr

/-- `EnemyBehavior` of the shared schema. -/
structure EnemyBehavior where
  aiType : String
  patrolPath : Option (List Vec3)
  guardPosition : Option Vec3
  aggroRange : ℚ
  attackRange : ℚ
deriving DecidableEq, Repr

/-- `ShooterEnemy` of the shared schema. -/
structure ShooterEnemy where
  id : String
  name : String
  health : ℚ
  moveSpeed : ℚ
  transform : Transform
  mesh : MeshSpec
  material : Material
  behavior : EnemyBehavior
  weapon : Option String
  accuracy : ℚ
  assetId : Option String
deriving DecidableEq, Repr

/-- `ShooterPickup`: the discriminated union flattened into one record
(`ptype` is the `type` discriminator; fields absent from a variant are
modelled as `none`/unused). -/
structure ShooterPickup where
  ptype : String
  id : String
  position : Vec3
  amount : ℚ
  weaponId : Option String
deriving DecidableEq, Repr

/-- `Arena` (the layout core reads only `size`). -/
structure Arena where
  size : Vec3
deriving DecidableEq, Repr

/-- `ArenaZone` (passed to `build` but unused by it). -/
structure ArenaZone where
  ztype : String
  region : String
deriving DecidableEq, Repr

/-- A cover cluster piece (meter offsets from the cluster anchor). -/
structure ClusterPiece where
  dx : ℚ
  dz : ℚ
  assetId : String
  rotY : ℚ
deriving DecidableEq, Repr

/-- `CoverCluster` of the template types. -/
structure CoverCluster where
  id : String
  anchor : NPt
  rotation : ℚ
  pieces : List ClusterPiece
deriving DecidableEq, Repr

/-- `WallLine` of the template types (`start`/`end` renamed
`lineStart`/`lineEnd`; `end` is a Lean keyword). -/
structure WallLine where
  id : String
  lineStart : NPt
  lineEnd : NPt
  assetId : String
  gaps : List ℚ
deriving DecidableEq, Repr

/-- `TemplateDecoration` of the template types. -/
structure TemplateDecoration where
  nx : ℚ
  nz : ℚ
  rotation : ℚ
  assetId : String
  themeTags : List String
deriving DecidableEq, Repr

/-- `EnemyHint` of the template types. -/
structure EnemyHint where
  region : String
  offsets : List NPt
  preferredAI : List String
  capacity : ℕ
deriving DecidableEq, Repr

/-- `PickupHint` of the template types. -/
structure PickupHint where
  region : String
  nx : ℚ
  nz : ℚ
  preferredTypes : List String
deriving DecidableEq, Repr

/-- A template zone rectangle (not consumed by the placement core). -/
structure TemplateZone where
  region : String
  defaultType : String
  cx : ℚ
  cz : ℚ
  width : ℚ
  depth : ℚ
deriving DecidableEq, Repr

/-- A movement lane. -/
structure Lane where
  laneFrom : NPt
  laneTo : NPt
  width : ℚ
deriving DecidableEq, Repr

/-- `LayoutTemplateDef` of the template types. -/
structure LayoutTemplateDef where
  id : String
  name : String
  description : String
  playerSpawn : NPt
  coverClusters : List CoverCluster
  wallLines : List WallLine
  decorations : List TemplateDecoration
  zones : List TemplateZone
  enemyHints : List EnemyHint
  pickupHints : List PickupHint
  lanes : List Lane
deriving DecidableEq, Repr

/-- `LayoutResult` of `layout-engine.ts`. -/
structure LayoutResult where
  coverObjects : List CoverObject
  wallEntities : List Entity
  adjustedEnemies : List ShooterEnemy
  adjustedPickups : List ShooterPickup
  decorations : List Entity
  playerSpawn : Vec3
deriving DecidableEq, Repr

-- ---------------------------------------------------------------------------
-- LayoutEngine (layout-engine.ts)
-- ---------------------------------------------------------------------------

/-- `toWorld`: normalized 0-1 coords to world coords centered on origin. -/
def toWorld (sX sZ nx nz : ℚ) : Pt2 :=
  ⟨(nx - 1/2) * sX, (nz - 1/2) * sZ⟩

/-- The `margin` constant of `LayoutEngine.build` (1.5 m). -/
def margin : ℚ := 3/2

/-- `inBounds` closure of `LayoutEngine.build`. -/
def inBounds (sX sZ x z : ℚ) : Bool :=
  |x| < sX / 2 - margin && |z| < sZ / 2 - margin

/-- The cover object built by `generateCoverObjects` for one piece. -/
def mkCoverObject (idx : ℕ) (wx wz rot : ℚ) (assetId : String) : CoverObject :=
  let dims := (ASSET_DIMS assetId).getD ⟨1, 1, 1⟩
  { id := "layout-cover-" ++ toString idx
    transform := ⟨⟨wx, 0, wz⟩, ⟨0, rot, 0⟩, ⟨1, 1, 1⟩⟩
    mesh := ⟨"box", ⟨dims.w, dims.h, dims.d⟩⟩
    material := ⟨"#888888", 4/5, 0⟩
    destructible := false
    assetId := some assetId }

/-- Inner piece loop of `generateCoverObjects` (threads the id counter). -/
def placePieces (sX sZ : ℚ) (anchor : Pt2) (rot cosR sinR : ℚ) :
    List ClusterPiece → ℕ → List CoverObject × ℕ
  | [], idx => ([], idx)
  | piece :: rest, idx =>
    let rx := piece.dx * cosR - piece.dz * sinR
    let rz := piece.dx * sinR + piece.dz * cosR
    let wx := anchor.x + rx
    let wz := anchor.z + rz
    if inBounds sX sZ wx wz then
      let (l, idx') := placePieces sX sZ anchor rot cosR sinR rest (idx + 1)
      (mkCoverObject idx wx wz (rot + piece.rotY) piece.assetId :: l, idx')
    else
      placePieces sX sZ anchor rot cosR sinR rest idx

/-- Outer cluster loop of `generateCoverObjects`. -/
def genCoversGo (M : MathOracle) (sX sZ : ℚ) : List CoverCluster → ℕ → List CoverObject
  | [], _ => []
  | cluster :: rest, idx =>
    let anchor := toWorld sX sZ cluster.anchor.nx cluster.anchor.nz
    let (l, idx') := placePieces sX sZ anchor cluster.rotation
      (M.cos cluster.rotation) (M.sin cluster.rotation) cluster.pieces idx
    l ++ genCoversGo M sX sZ rest idx'

/-- `generateCoverObjects`. -/
def generateCoverObjects (M : MathOracle) (template : LayoutTemplateDef) (sX sZ : ℚ) :
    List CoverObject :=
  genCoversGo M sX sZ template.coverClusters 0

/-- `Math.round` (`Math.round x = Math.floor (x + 0.5)`). -/
def jsRound (q : ℚ) : ℤ := ⌊q + 1/2⌋

/-- The wall entity built by `tileWallLines` for one surviving segment. -/
def mkWallEntity (idx : ℕ) (wx wz angle : ℚ) (assetId : String) (dims : Dims3) : Entity :=
  { id := "layout-wall-" ++ toString idx
    name := "Interior Wall"
    etype := "prop"
    transform := ⟨⟨wx, 0, wz⟩, ⟨0, angle, 0⟩, ⟨1, 1, 1⟩⟩
    mesh := ⟨"box", ⟨dims.w, dims.h, dims.d⟩⟩
    material := ⟨"#999999", 7/10, 0⟩
    physics := some ⟨"static", "box"⟩
    assetId := some assetId }

/-- Inner segment loop of `tileWallLines` over segment indices. -/
def tileLoop (sX sZ : ℚ) (startP : Pt2) (dirX dirZ actualStep gapRadius : ℚ)
    (gapPositions : List ℚ) (angle : ℚ) (assetId : String) (dims : Dims3) :
    List ℕ → ℕ → List Entity × ℕ
  | [], idx => ([], idx)
  | i :: rest, idx =>
    let t := ((i : ℚ) + 1/2) * actualStep
    if gapPositions.any (fun gp => |t - gp| < gapRadius) then
      tileLoop sX sZ startP dirX dirZ actualStep gapRadius gapPositions angle assetId dims rest idx
    else
      let wx := startP.x + dirX * t
      let wz := startP.z + dirZ * t
      if inBounds sX sZ wx wz then
        let (l, idx') :=
          tileLoop sX sZ startP dirX dirZ actualStep gapRadius gapPositions angle assetId dims
            rest (idx + 1)
        (mkWallEntity idx wx wz angle assetId dims :: l, idx')
      else
        tileLoop sX sZ startP dirX dirZ actualStep gapRadius gapPositions angle assetId dims rest idx

/-- One iteration of the wall-line loop of `tileWallLines`. -/
def tileLine (M : MathOracle) (sX sZ : ℚ) (wl : WallLine) (idx : ℕ) : List Entity × ℕ :=
  let s := toWorld sX sZ wl.lineStart.nx wl.lineStart.nz
  let e := toWorld sX sZ wl.lineEnd.nx wl.lineEnd.nz
  let dx := e.x - s.x
  let dz := e.z - s.z
  let lineLen := M.sqrt (dx ^ 2 + dz ^ 2)
  if lineLen < 1/10 then ([], idx)
  else
    let dirX := dx / lineLen
    let dirZ := dz / lineLen
    let angle := M.atan2 dz dx
    let dims := (ASSET_DIMS wl.assetId).getD ⟨2, 2, 2/5⟩
    let segWidth := dims.w
    let segCount := (max 1 (jsRound (lineLen / segWidth))).toNat
    let actualStep := lineLen / (segCount : ℚ)
    let gapPositions := wl.gaps.map (fun g => g * lineLen)
    let gapRadius := segWidth * (3/5)
    tileLoop sX sZ s dirX dirZ actualStep gapRadius gapPositions angle wl.assetId dims
      (List.range segCount) idx

/-- Wall-line loop of `tileWallLines` (threads the id counter). -/
def tileLinesGo (M : MathOracle) (sX sZ : ℚ) : List WallLine → ℕ → List Entity
  | [], _ => []
  | wl :: rest, idx =>
    let (l, idx') := tileLine M sX sZ wl idx
    l ++ tileLinesGo M sX sZ rest idx'

/-- `tileWallLines`. -/
def tileWallLines (M : MathOracle) (template : LayoutTemplateDef) (sX sZ : ℚ) : List Entity :=
  tileLinesGo M sX sZ template.wallLines 0

-- ---------------------------------------------------------------------------
-- Enemy placement
-- ---------------------------------------------------------------------------

/-- The loop body score of `findBestHint`:
`1 (base) + 2 if preferredAI includes aiType + 1 if the hint is unused`. -/
def hintScore (hint : EnemyHint) (used : ℕ) (aiType : String) : ℤ :=
  1 + (if aiType ∈ hint.preferredAI then 2 else 0) + (if used = 0 then 1 else 0)

/-- Out-of-range placeholder for `List.getD` (never selected: the loops index
within bounds, as the accompanying lemmas show). -/
def dfltEnemyHint : EnemyHint := ⟨"center", [], [], 0⟩

/-- One iteration of the `findBestHint` loop, folding `(bestIdx, bestScore)`. -/
def fbhStep (hints : List EnemyHint) (used : ℕ → ℕ) (aiType : String)
    (acc : Option ℕ × ℤ) (i : ℕ) : Option ℕ × ℤ :=
  let h := hints.getD i dfltEnemyHint
  if h.capacity ≤ used i then acc
  else
    let s := hintScore h (used i) aiType
    if acc.2 < s then (some i, s) else acc

/-- `findBestHint` (`-1` modelled as `none`; `usedCapacity` map as a total
function defaulting to 0). -/
def findBestHint (hints : List EnemyHint) (used : ℕ → ℕ) (aiType : String) : Option ℕ :=
  ((List.range hints.length).foldl (fbhStep hints used aiType) (none, -1)).1

/-- `Math.max(lo, Math.min(hi, v))` clamping as used by the placers. -/
def clampQ (lo hi v : ℚ) : ℚ := max lo (min hi v)

/-- The hint-assignment step of the `placeEnemies` loop body
(`if (hintIdx >= 0) { ... }`).  `none` models the JS `TypeError` thrown by
`hint.offsets[used % 0]` when the chosen hint has no offsets. -/
def applyHint (hints : List EnemyHint) (sX sZ : ℚ) (used : ℕ → ℕ) (e : ShooterEnemy) :
    Option (ShooterEnemy × (ℕ → ℕ)) :=
  match findBestHint hints used e.behavior.aiType with
  | none => some (e, used)
  | some i =>
    let hint := hints.getD i dfltEnemyHint
    let u := used i
    if hint.offsets.length = 0 then none
    else
      let offset := hint.offsets.getD (u % hint.offsets.length) ⟨0, 0⟩
      let pos := toWorld sX sZ offset.nx offset.nz
      -- overflow = Math.max(0, used - hint.offsets.length): ℕ subtraction
      let overflow := u - hint.offsets.length
      let px :=
        if 0 < overflow then
          pos.x + (if overflow % 2 = 0 then 1 else -1) * 2 * (((overflow + 1) / 2 : ℕ) : ℚ)
        else pos.x
      let halfX := sX / 2 - 2
      let halfZ := sZ / 2 - 2
      some ({ e with transform := { e.transform with
                position := ⟨clampQ (-halfX) halfX px, 0, clampQ (-halfZ) halfZ pos.z⟩ } },
            Function.update used i (u + 1))

/-- The 10-unit minimum-spawn-distance step of the `placeEnemies` loop body. -/
def enforceSpawnDistance (M : MathOracle) (spawn : Vec3) (sX sZ : ℚ) (e : ShooterEnemy) :
    ShooterEnemy :=
  let p := e.transform.position
  let dist := M.sqrt ((p.x - spawn.x) ^ 2 + (p.z - spawn.z) ^ 2)
  if dist < 10 then
    let angle := M.atan2 (p.z - spawn.z) (p.x - spawn.x)
    let nx := spawn.x + M.cos angle * 12
    let nz := spawn.z + M.sin angle * 12
    let halfX := sX / 2 - 2
    let halfZ := sZ / 2 - 2
    { e with transform := { e.transform with
        position := ⟨clampQ (-halfX) halfX nx, p.y, clampQ (-halfZ) halfZ nz⟩ } }
  else e

/-- Lane loop of `findNearestLane` (`bestDist = Infinity` modelled as `none`;
the dead local `dist` of the source is not reproduced). -/
def fnlGo (M : MathOracle) (pos : Vec3) :
    List Lane → Option ℚ → Option (ℚ × ℚ) → Option (ℚ × ℚ)
  | [], _, bestDir => bestDir
  | lane :: rest, bestDist, bestDir =>
    let mx := (lane.laneFrom.nx + lane.laneTo.nx) / 2
    let mz := (lane.laneFrom.nz + lane.laneTo.nz) / 2
    let ldx := lane.laneTo.nx - lane.laneFrom.nx
    let ldz := lane.laneTo.nz - lane.laneFrom.nz
    let len := M.sqrt (ldx ^ 2 + ldz ^ 2)
    if len < 1/100 then fnlGo M pos rest bestDist bestDir
    else
      let midDist := M.sqrt ((pos.x - (mx - 1/2)) ^ 2 + (pos.z - (mz - 1/2)) ^ 2)
      if (match bestDist with | none => true | some b => decide (midDist < b)) then
        fnlGo M pos rest (some midDist) (some (ldx / len, ldz / len))
      else fnlGo M pos rest bestDist bestDir

/-- `findNearestLane`. -/
def findNearestLane (M : MathOracle) (template : LayoutTemplateDef) (pos : Vec3) :
    Option (ℚ × ℚ) :=
  if template.lanes.length = 0 then none
  else fnlGo M pos template.lanes none none

/-- `regenerateBehaviorPaths`. -/
def regenerateBehaviorPaths (M : MathOracle) (template : LayoutTemplateDef)
    (e : ShooterEnemy) : ShooterEnemy :=
  let p := e.transform.position
  match e.behavior.aiType with
  | "patrol" =>
    match findNearestLane M template p with
    | some lane =>
      { e with behavior := { e.behavior with patrolPath := some (
            [⟨p.x - lane.1 * 3, 0, p.z - lane.2 * 3⟩,
             ⟨p.x + lane.1 * 3, 0, p.z + lane.2 * 3⟩]) } }
    | none =>
      { e with behavior := { e.behavior with patrolPath := some (
            [⟨p.x - 3, 0, p.z⟩, ⟨p.x + 3, 0, p.z⟩]) } }
  | "guard" =>
    { e with behavior := { e.behavior with
        guardPosition := some ⟨p.x, 0, p.z⟩, patrolPath := none } }
  | "wander" =>
    { e with behavior := { e.behavior with patrolPath := some (
          [⟨p.x - 4, 0, p.z - 4⟩, ⟨p.x + 4, 0, p.z - 4⟩,
           ⟨p.x + 4, 0, p.z + 4⟩, ⟨p.x - 4, 0, p.z + 4⟩]) } }
  | _ => e

/-- One full iteration of the `placeEnemies` per-enemy loop. -/
def placeOne (M : MathOracle) (template : LayoutTemplateDef) (spawn : Vec3) (sX sZ : ℚ)
    (used : ℕ → ℕ) (e : ShooterEnemy) : Option (ShooterEnemy × (ℕ → ℕ)) :=
  match applyHint template.enemyHints sX sZ used e with
  | none => none
  | some (e1, used') =>
    some (regenerateBehaviorPaths M template (enforceSpawnDistance M spawn sX sZ e1), used')

/-- The `placeEnemies` loop over the (deep-copied) enemy list. -/
def placeEnemiesGo (M : MathOracle) (template : LayoutTemplateDef) (spawn : Vec3)
    (sX sZ : ℚ) : (ℕ → ℕ) → List ShooterEnemy → Option (List ShooterEnemy × (ℕ → ℕ))
  | used, [] => some ([], used)
  | used, e :: rest =>
    match placeOne M template spawn sX sZ used e with
    | none => none
    | some (e1, used') =>
      match placeEnemiesGo M template spawn sX sZ used' rest with
      | none => none
      | some (l, uf) => some (e1 :: l, uf)

/-- `placeEnemies` (also returns the final `usedCapacity` map; the deep copy
of the input list is the pure model itself). -/
def placeEnemies (M : MathOracle) (template : LayoutTemplateDef)
    (enemies : List ShooterEnemy) (spawn : Vec3) (sX sZ : ℚ) :
    Option (List ShooterEnemy × (ℕ → ℕ)) :=
  placeEnemiesGo M template spawn sX sZ (fun _ => 0) enemies

-- ---------------------------------------------------------------------------
-- Pickup placement
-- ---------------------------------------------------------------------------

/-- Out-of-range placeholder for `List.getD` on pickup hints. -/
def dfltPickupHint : PickupHint := ⟨"center", 0, 0, []⟩

/-- `findBestPickupHint` (`usedHints` set as a list; `-1` as `none`;
final seat-reuse fallback to hint 0 included). -/
def findBestPickupHint (hints : List PickupHint) (used : List ℕ) (pickupType : String) :
    Option ℕ :=
  let best := (List.range hints.length).foldl (fun acc i =>
    if used.contains i then acc
    else
      let s : ℤ := 1 + (if pickupType ∈ (hints.getD i dfltPickupHint).preferredTypes then 2 else 0)
      if acc.2 < s then (some i, s) else acc) ((none : Option ℕ), (-1 : ℤ))
  match best.1 with
  | some i => some i
  | none => if 0 < hints.length then some 0 else none

/-- The `placePickups` loop over the (deep-copied) pickup list. -/
def placePickupsGo (sX sZ : ℚ) (hints : List PickupHint) :
    List ℕ → List ShooterPickup → List ShooterPickup
  | _, [] => []
  | used, pk :: rest =>
    match findBestPickupHint hints used pk.ptype with
    | none => pk :: placePickupsGo sX sZ hints used rest
    | some i =>
      let hint := hints.getD i dfltPickupHint
      let pos := toWorld sX sZ hint.nx hint.nz
      let halfX := sX / 2 - 2
      let halfZ := sZ / 2 - 2
      { pk with position := ⟨clampQ (-halfX) halfX pos.x, 1/2, clampQ (-halfZ) halfZ pos.z⟩ }
        :: placePickupsGo sX sZ hints (i :: used) rest

/-- `placePickups`. -/
def placePickups (template : LayoutTemplateDef) (pickups : List ShooterPickup)
    (sX sZ : ℚ) : List ShooterPickup :=
  placePickupsGo sX sZ template.pickupHints [] pickups

-- ---------------------------------------------------------------------------
-- Decorations
-- ---------------------------------------------------------------------------

/-- JS `String.prototype.includes` (substring containment). -/
def strIncludes (s sub : String) : Bool := decide (List.IsInfix sub.data s.data)

/-- The decoration entity built by `generateDecorations`. -/
def mkDecoration (idx : ℕ) (pos : Pt2) (dec : TemplateDecoration) : Entity :=
  let dims := (ASSET_DIMS dec.assetId).getD ⟨1/2, 1, 1/2⟩
  { id := "layout-decor-" ++ toString idx
    name := "Decoration"
    etype := "prop"
    transform := ⟨⟨pos.x, 0, pos.z⟩, ⟨0, dec.rotation, 0⟩, ⟨1, 1, 1⟩⟩
    mesh := ⟨"box", ⟨dims.w, dims.h, dims.d⟩⟩
    material := ⟨"#aaaaaa", 1/2, 0⟩
    physics := none
    assetId := some dec.assetId }

/-- Loop of `generateDecorations` (a `theme` that is the empty string is
falsy in JS, so it disables filtering, like an absent theme). -/
def generateDecorationsGo (sX sZ : ℚ) (theme : Option String) :
    List TemplateDecoration → ℕ → List Entity
  | [], _ => []
  | dec :: rest, idx =>
    let filtered :=
      match theme with
      | none => false
      | some th =>
        if th = "" then false
        else if dec.themeTags.length = 0 then false
        else !(dec.themeTags.any (fun tag => strIncludes th.toLower tag))
    if filtered then generateDecorationsGo sX sZ theme rest idx
    else
      let pos := toWorld sX sZ dec.nx dec.nz
      if inBounds sX sZ pos.x pos.z then
        mkDecoration idx pos dec :: generateDecorationsGo sX sZ theme rest (idx + 1)
      else
        generateDecorationsGo sX sZ theme rest idx

/-- `generateDecorations`. -/
def generateDecorations (template : LayoutTemplateDef) (sX sZ : ℚ)
    (theme : Option String) : List Entity :=
  generateDecorationsGo sX sZ theme template.decorations 0

-- ---------------------------------------------------------------------------
-- Density enforcement
-- ---------------------------------------------------------------------------

/-- The footprint of one cover object as computed by `enforceDensity`
(`ASSET_DIMS[assetId ?? ""]`, default `1 × 1`). -/
def footprintOf (c : CoverObject) : ℚ :=
  let dims := (ASSET_DIMS (c.assetId.getD "")).getD ⟨1, 1, 1⟩
  dims.w * dims.d

/-- The `toRemove` index list of `enforceDensity`: indices at which the
running footprint total exceeds `maxFootprint`. -/
def removalIdxs (maxF : ℚ) : List CoverObject → ℕ → ℚ → List ℕ
  | [], _, _ => []
  | c :: rest, i, tot =>
    let tot' := tot + footprintOf c
    (if maxF < tot' then [i] else []) ++ removalIdxs maxF rest (i + 1) tot'

/-- `enforceDensity` (the in-place splice of descending indices is modelled
as dropping exactly the elements at the collected indices). -/
def enforceDensity (covers : List CoverObject) (arenaX arenaZ : ℚ) : List CoverObject :=
  let maxFootprint := arenaX * arenaZ * (3/10)
  let toRemove := removalIdxs maxFootprint covers 0 0
  (covers.enum.filter (fun p => !(toRemove.contains p.1))).map Prod.snd

-- ---------------------------------------------------------------------------
-- LayoutEngine.build
-- ---------------------------------------------------------------------------

/-- `LayoutEngine.build`.  The `LAYOUT_TEMPLATES` registry lookup is the
injected `templates` map; `none` models a thrown JS `TypeError` (reachable
only via a zero-offset enemy hint, see `applyHint`). -/
def LayoutEngine.build (M : MathOracle) (templates : String → Option LayoutTemplateDef)
    (templateName : String) (arena : Arena) (zones : List ArenaZone)
    (enemies : List ShooterEnemy) (pickups : List ShooterPickup)
    (theme : Option String) : Option LayoutResult :=
  match templates templateName with
  | none =>
    some { coverObjects := [], wallEntities := [], adjustedEnemies := enemies,
           adjustedPickups := pickups, decorations := [], playerSpawn := ⟨0, 0, 0⟩ }
  | some template =>
    let sX := arena.size.x
    let sZ := arena.size.z
    let spawnWorld := toWorld sX sZ template.playerSpawn.nx template.playerSpawn.nz
    let playerSpawn : Vec3 := ⟨spawnWorld.x, 0, spawnWorld.z⟩
    let coverObjects := generateCoverObjects M template sX sZ
    let wallEntities := tileWallLines M template sX sZ
    match placeEnemies M template enemies playerSpawn sX sZ with
    | none => none
    | some (adjustedEnemies, _) =>
      let adjustedPickups := placePickups template pickups sX sZ
      let decorations := generateDecorations template sX sZ theme
      some { coverObjects := enforceDensity coverObjects sX sZ
             wallEntities := wallEntities
             adjustedEnemies := adjustedEnemies
             adjustedPickups := adjustedPickups
             decorations := decorations
             playerSpawn := playerSpawn }

-- ---------------------------------------------------------------------------
-- LayoutValidator (layout-validator.ts)
-- ---------------------------------------------------------------------------

/-- A validator issue (`{type, description}`; the numeric percentage
formatting of the source descriptions is elided as presentation-only). -/
structure LayoutIssue where
  itype : String
  description : String
deriving DecidableEq, Repr

/-- Axis-aligned bounding box on the XZ plane. -/
structure AABB where
  minX : ℚ
  maxX : ℚ
  minZ : ℚ
  maxZ : ℚ
deriving DecidableEq, Repr

/-- 2-D asset dimensions (`{w, d}`) of the validator's own catalog. -/
structure Dims2 where
  w : ℚ
  d : ℚ
deriving DecidableEq, Repr

/-- `ASSET_DIMS` of `layout-validator.ts` (a smaller map than the engine's:
statue/banner/tree are absent and fall back to the 1×1 default). -/
def VALIDATOR_ASSET_DIMS : String → Option Dims2
  | "kenney_block" => some ⟨1, 1⟩
  | "kenney_bricks" => some ⟨1, 1⟩
  | "kenney_column" => some ⟨1/2, 1/2⟩
  | "kenney_column_damaged" => some ⟨1/2, 1/2⟩
  | "kenney_wall_low" => some ⟨2, 1/2⟩
  | "kenney_wall" => some ⟨2, 2/5⟩
  | "kenney_wall_high" => some ⟨2, 1/2⟩
  | "kenney_wall_gate" => some ⟨2, 2/5⟩
  | _ => none

/-- `entityToAABB`. -/
def entityToAABB (pos : Vec3) (assetId : Option String) : AABB :=
  let dims := (VALIDATOR_ASSET_DIMS (assetId.getD "")).getD ⟨1, 1⟩
  ⟨pos.x - dims.w / 2, pos.x + dims.w / 2, pos.z - dims.d / 2, pos.z + dims.d / 2⟩

/-- `aabbIntersects`. -/
def aabbIntersects (a b : AABB) : Bool :=
  a.minX < b.maxX && b.minX < a.maxX && a.minZ < b.maxZ && b.minZ < a.maxZ

/-- The `(id, aabb)` record `validateLayout` builds for a cover object. -/
def coverBox (c : CoverObject) : String × AABB :=
  (c.id, entityToAABB c.transform.position c.assetId)

/-- The `(id, aabb)` record `validateLayout` builds for a wall entity. -/
def wallBox (w : Entity) : String × AABB :=
  (w.id, entityToAABB w.transform.position w.assetId)

/-- `allBoxes` of `validateLayout`: cover boxes then wall boxes. -/
def allBoxesOf (covers : List CoverObject) (walls : List Entity) : List (String × AABB) :=
  covers.map coverBox ++ walls.map wallBox

/-- The O(n²) overlap scan: for every `i < j` with intersecting boxes,
the pair of ids `(boxes[i].id, boxes[j].id)` in loop order. -/
def overlapPairs : List (String × AABB) → List (String × String)
  | [] => []
  | b :: rest =>
    (rest.filterMap (fun c => if aabbIntersects b.2 c.2 then some (b.1, c.1) else none))
      ++ overlapPairs rest

/-- `overlapIds`: the later-indexed id of every intersecting pair. -/
def overlapIdsOf (boxes : List (String × AABB)) : List String :=
  (overlapPairs boxes).map Prod.snd

/-- The overlap issues emitted by step 1 of `validateLayout`. -/
def overlapIssues (boxes : List (String × AABB)) : List LayoutIssue :=
  (overlapPairs boxes).map (fun p =>
    ⟨"overlap", "Objects " ++ p.1 ++ " and " ++ p.2 ++ " overlap"⟩)

/-- Whether grid cell `(gx, gz)` is marked blocked: some box's clamped
integer cell range (step 2 of `validateLayout`, `gridRes = 1`) covers it. -/
def cellBlocked (halfX halfZ : ℚ) (gridW gridH : ℕ) (boxes : List (String × AABB))
    (gx gz : ℕ) : Bool :=
  boxes.any (fun b =>
    let a := b.2
    let gx0 : ℤ := max 0 ⌊a.minX + halfX⌋
    let gx1 : ℤ := min ((gridW : ℤ) - 1) ⌊a.maxX + halfX⌋
    let gz0 : ℤ := max 0 ⌊a.minZ + halfZ⌋
    let gz1 : ℤ := min ((gridH : ℤ) - 1) ⌊a.maxZ + halfZ⌋
    gx0 ≤ (gx : ℤ) && (gx : ℤ) ≤ gx1 && gz0 ≤ (gz : ℤ) && (gz : ℤ) ≤ gz1)

/-- The stack-based 4-directional flood fill of step 2, with explicit fuel
(one pop per iteration; `gridW * gridH + 2` fuel suffices since each cell
is pushed at most once).  Visited cells are stored as indices
`gz * gridW + gx`. -/
def ffGo (blocked : ℕ → ℕ → Bool) (gridW gridH : ℕ) :
    ℕ → List (ℕ × ℕ) → List ℕ → List ℕ
  | 0, _, vis => vis
  | _ + 1, [], vis => vis
  | fuel + 1, (cx, cz) :: stack, vis =>
    let neighbors : List (ℤ × ℤ) :=
      [((cx : ℤ) - 1, (cz : ℤ)), ((cx : ℤ) + 1, (cz : ℤ)),
       ((cx : ℤ), (cz : ℤ) - 1), ((cx : ℤ), (cz : ℤ) + 1)]
    let next := neighbors.foldl (fun (acc : List (ℕ × ℕ) × List ℕ) n =>
      if n.1 < 0 || (gridW : ℤ) ≤ n.1 || n.2 < 0 || (gridH : ℤ) ≤ n.2 then acc
      else
        let nx := n.1.toNat
        let nz := n.2.toNat
        let idx := nz * gridW + nx
        if blocked nx nz || acc.2.contains idx then acc
        else ((nx, nz) :: acc.1, idx :: acc.2)) (stack, vis)
    ffGo blocked gridW gridH fuel next.1 next.2

/-- Step 2 of `validateLayout`: reachability audit over the 1 m grid,
emitting the non-fatal unreachable issue below the 70% threshold. -/
def reachIssues (retained : List (String × AABB)) (sX sZ : ℚ) (spawn : Vec3) :
    List LayoutIssue :=
  let halfX := sX / 2
  let halfZ := sZ / 2
  let gridW := (⌈sX⌉).toNat
  let gridH := (⌈sZ⌉).toNat
  let blocked := cellBlocked halfX halfZ gridW gridH retained
  let spawnGX := (max 0 (min ((gridW : ℤ) - 1) ⌊spawn.x + halfX⌋)).toNat
  let spawnGZ := (max 0 (min ((gridH : ℤ) - 1) ⌊spawn.z + halfZ⌋)).toNat
  let start : List (ℕ × ℕ) × List ℕ :=
    if blocked spawnGX spawnGZ then ([], [])
    else ([(spawnGX, spawnGZ)], [spawnGZ * gridW + spawnGX])
  let vis := ffGo blocked gridW gridH (gridW * gridH + 2) start.1 start.2
  let cells := List.range (gridW * gridH)
  let totalOpen := (cells.filter (fun i => !blocked (i % gridW) (i / gridW))).length
  let reachable :=
    (cells.filter (fun i => !blocked (i % gridW) (i / gridW) && vis.contains i)).length
  if 0 < totalOpen ∧ (reachable : ℚ) / (totalOpen : ℚ) < 7/10 then
    [⟨"unreachable", "below 70 percent of arena reachable from spawn"⟩]
  else []

/-- One quadrant rectangle of step 3. -/
structure Quad where
  qname : String
  minX : ℚ
  maxX : ℚ
  minZ : ℚ
  maxZ : ℚ
deriving DecidableEq, Repr

/-- The four quadrants about the center. -/
def quadrantsOf (halfX halfZ : ℚ) : List Quad :=
  [⟨"NW", -halfX, 0, -halfZ, 0⟩, ⟨"NE", 0, halfX, -halfZ, 0⟩,
   ⟨"SW", -halfX, 0, 0, halfZ⟩, ⟨"SE", 0, halfX, 0, halfZ⟩]

/-- Step 3 of `validateLayout`: quadrant density audit (60% threshold). -/
def densityIssues (retained : List (String × AABB)) (sX sZ : ℚ) : List LayoutIssue :=
  (quadrantsOf (sX / 2) (sZ / 2)).filterMap (fun q =>
    let quadArea : ℚ := (q.maxX - q.minX) * (q.maxZ - q.minZ)
    let covered : ℚ := retained.foldl (fun acc b =>
      acc + max 0 (min b.2.maxX q.maxX - max b.2.minX q.minX)
              * max 0 (min b.2.maxZ q.maxZ - max b.2.minZ q.minZ)) 0
    if 0 < quadArea ∧ 3/5 < covered / quadArea then
      some ⟨"density", "Quadrant " ++ q.qname ++ " above 60 percent coverage"⟩
    else none)

/-- The post-state of a `validateLayout` call: the issue list it returns,
plus the final values of its four arguments (the source mutates
`coverObjects` in place; everything else is returned unchanged). -/
structure ValidateResult where
  issues : List LayoutIssue
  coverObjects : List CoverObject
  wallEntities : List Entity
  arena : Arena
  playerSpawn : Vec3
deriving DecidableEq, Repr

/-- `validateLayout`. -/
def validateLayout (covers : List CoverObject) (walls : List Entity)
    (arena : Arena) (spawn : Vec3) : ValidateResult :=
  let boxes := allBoxesOf covers walls
  let overlapIds := overlapIdsOf boxes
  let newCovers := covers.filter (fun c => !(overlapIds.contains c.id))
  let retained := boxes.filter (fun b => !(overlapIds.contains b.1))
  let issues := overlapIssues boxes
    ++ reachIssues retained arena.size.x arena.size.z spawn
    ++ densityIssues retained arena.size.x arena.size.z
  ⟨issues, newCovers, walls, arena, spawn⟩

-- ---------------------------------------------------------------------------
-- Concrete material for witnesses and counterexamples
-- ---------------------------------------------------------------------------

/-- Squared XZ distance.  The source's `distXZ(a, b) = Math.sqrt(...)`; we
state distance claims through squares (`distXZ a b ≥ 10 ↔ distSqXZ a b ≥ 100`
for an exact square root), which is oracle-free. -/
def distSqXZ (a b : Vec3) : ℚ := (a.x - b.x) ^ 2 + (a.z - b.z) ^ 2

/-- A concrete rational oracle: `sqrt v = v / 10` (which satisfies
`sqrt v < 10 ↔ v < 100` for every `v`), `cos = 1`, `sin = 0` (a unit
vector), `atan2 = 0`.  On the concrete runs below it agrees with the real
`Math` functions at every evaluated point. -/
def linOracle : MathOracle := ⟨fun v => v / 10, fun _ => 1, fun _ => 0, fun _ _ => 0⟩

/-- An enemy record with the given id, AI type and position. -/
def mkEnemy (id : String) (aiType : String) (pos : Vec3) : ShooterEnemy :=
  { id := id, name := id, health := 10, moveSpeed := 3
    transform := ⟨pos, ⟨0, 0, 0⟩, ⟨1, 1, 1⟩⟩
    mesh := ⟨"box", ⟨1, 1, 1⟩⟩, material := ⟨"#ff0000", 1/2, 0⟩
    behavior := ⟨aiType, none, none, 15, 2⟩
    weapon := none, accuracy := 1/2, assetId := none }

/-- A pickup record with the given id and type. -/
def mkPickup (id : String) (ptype : String) (pos : Vec3) : ShooterPickup :=
  { ptype := ptype, id := id, position := pos, amount := 25, weaponId := none }

/-- A template with centered spawn and no content at all. -/
def tplBare : LayoutTemplateDef :=
  { id := "bare", name := "Bare", description := "no content"
    playerSpawn := ⟨1/2, 1/2⟩, coverClusters := [], wallLines := [], decorations := []
    zones := [], enemyHints := [], pickupHints := [], lanes := [] }

/-- Frame relation for enemies: every field agrees except the world
position and the regenerated behavior-path fields
(`transform.position`, `behavior.patrolPath`, `behavior.guardPosition`).
Specification-side vocabulary for the frame claims. -/
def enemyFrameEq (e' e : ShooterEnemy) : Prop :=
  e'.id = e.id ∧ e'.name = e.name ∧ e'.health = e.health ∧ e'.moveSpeed = e.moveSpeed ∧
  e'.transform.rotation = e.transform.rotation ∧ e'.transform.scale = e.transform.scale ∧
  e'.mesh = e.mesh ∧ e'.material = e.material ∧
  e'.behavior.aiType = e.behavior.aiType ∧
  e'.behavior.aggroRange = e.behavior.aggroRange ∧
  e'.behavior.attackRange = e.behavior.attackRange ∧
  e'.weapon = e.weapon ∧ e'.accuracy = e.accuracy ∧ e'.assetId = e.assetId

/-- Frame relation for pickups: every field agrees except `position`. -/
def pickupFrameEq (p' p : ShooterPickup) : Prop :=
  p'.id = p.id ∧ p'.ptype = p.ptype ∧ p'.amount = p.amount ∧ p'.weaponId = p.weaponId

/-- The C6 scenario wall line: a 2-point line spanning half the arena
(10 m world length in a 20×20 arena), 2 m wall asset, one gap at 0.5. -/
def wl10 : WallLine := ⟨"wl10", ⟨1/4, 1/2⟩, ⟨3/4, 1/2⟩, "kenney_wall", [1/2]⟩

/-- A cover object literal for concrete runs. -/
def mkCover (id : String) (x z : ℚ) (assetId : Option String) : CoverObject :=
  { id := id, transform := ⟨⟨x, 0, z⟩, ⟨0, 0, 0⟩, ⟨1, 1, 1⟩⟩
    mesh := ⟨"box", ⟨1, 1, 1⟩⟩, material := ⟨"#888888", 4/5, 0⟩
    destructible := false, assetId := assetId }

/-- A template whose only content is a single enemy hint with one offset
and capacity 2, preferring chase enemies (the C8 scenario template). -/
def tplOneHint : LayoutTemplateDef :=
  { id := "onehint", name := "One Hint", description := "single enemy hint"
    playerSpawn := ⟨1/2, 9/10⟩, coverClusters := [], wallLines := [], decorations := []
    zones := [], enemyHints := [⟨"center", [⟨1/5, 1/5⟩], ["chase"], 2⟩]
    pickupHints := [], lanes := [] }

/-- Specification-side counterpart of `enforceDensity`, following the
spec's words: the length of the longest prefix whose cumulative footprint
(starting from `tot`) never exceeds the budget `B`.  Compared against the
source's mark-and-splice `enforceDensity` in the C5 theorem. -/
def densityKeep (B : ℚ) : List CoverObject → ℚ → ℕ
  | [], _ => 0
  | c :: rest, tot =>
    if B < tot + footprintOf c then 0 else 1 + densityKeep B rest (tot + footprintOf c)

-- ---------------------------------------------------------------------------
-- General lemmas
-- ---------------------------------------------------------------------------

/-- An AI type with no regeneration case (chase, boss, anything else)
leaves the enemy untouched. -/
theorem regenerateBehaviorPaths_of_not_pathed (M : MathOracle)
    (template : LayoutTemplateDef) (e : ShooterEnemy)
    (h1 : e.behavior.aiType ≠ "patrol") (h2 : e.behavior.aiType ≠ "guard")
    (h3 : e.behavior.aiType ≠ "wander") :
    regenerateBehaviorPaths M template e = e := by
  unfold regenerateBehaviorPaths
  split <;> simp_all

-- ---------------------------------------------------------------------------
-- C2 — unknown template name
-- ---------------------------------------------------------------------------

/-- C2 (counterexample): calling `LayoutEngine.build` with a template name
missing from the registry and a single input enemy yields a result whose
`adjustedEnemies` list is the input list — not the empty list the claim
requires of every list of the result. -/
theorem C2_counterexample :
    (LayoutEngine.build linOracle (fun _ => none) "warehouse" ⟨⟨20, 4, 20⟩⟩ []
        [mkEnemy "e1" "chase" ⟨0, 0, 0⟩] [] none).map LayoutResult.adjustedEnemies
      = some [mkEnemy "e1" "chase" ⟨0, 0, 0⟩] ∧
    (LayoutEngine.build linOracle (fun _ => none) "warehouse" ⟨⟨20, 4, 20⟩⟩ []
        [mkEnemy "e1" "chase" ⟨0, 0, 0⟩] [] none).map LayoutResult.adjustedEnemies
      ≠ some [] := by
  constructor <;> simp [LayoutEngine.build]

/-- C2 (amended): with a template name not in the registry, `build` returns
a result whose `coverObjects`, `wallEntities` and `decorations` lists are
empty and whose player spawn is the origin — but whose `adjustedEnemies`
and `adjustedPickups` are the input enemy and pickup lists, unchanged
(not emptied). -/
theorem C2_unknown_template_amended (M : MathOracle)
    (templates : String → Option LayoutTemplateDef) (templateName : String)
    (arena : Arena) (zones : List ArenaZone) (enemies : List ShooterEnemy)
    (pickups : List ShooterPickup) (theme : Option String)
    (h : templates templateName = none) :
    LayoutEngine.build M templates templateName arena zones enemies pickups theme =
      some { coverObjects := [], wallEntities := [], adjustedEnemies := enemies,
             adjustedPickups := pickups, decorations := [], playerSpawn := ⟨0, 0, 0⟩ } := by
  simp [LayoutEngine.build, h]

/-- C2 witness: the amended theorem applied to a concrete call. -/
theorem C2_unknown_template_amended_witness :
    ((fun (_ : String) => (none : Option LayoutTemplateDef)) "warehouse" = none) ∧
    LayoutEngine.build linOracle (fun _ => none) "warehouse" ⟨⟨20, 4, 20⟩⟩ []
        [mkEnemy "e1" "chase" ⟨0, 0, 0⟩] [mkPickup "p1" "health" ⟨0, 0, 0⟩] none =
      some { coverObjects := [], wallEntities := [],
             adjustedEnemies := [mkEnemy "e1" "chase" ⟨0, 0, 0⟩],
             adjustedPickups := [mkPickup "p1" "health" ⟨0, 0, 0⟩],
             decorations := [], playerSpawn := ⟨0, 0, 0⟩ } :=
  ⟨rfl, C2_unknown_template_amended linOracle (fun _ => none) "warehouse"
    ⟨⟨20, 4, 20⟩⟩ [] [mkEnemy "e1" "chase" ⟨0, 0, 0⟩]
    [mkPickup "p1" "health" ⟨0, 0, 0⟩] none rfl⟩

-- ---------------------------------------------------------------------------
-- C1 — spawn-distance invariant: counterexample
-- ---------------------------------------------------------------------------

/-- C1 (counterexample): in a 10×10 arena with centered spawn and no enemy
hints, an enemy at (1, 0) is within 10 units of spawn, is repositioned to
12 units along its bearing (at (12, 0)), and is then re-clamped to the
bounds-minus-2 m box, landing at (3, 0) — squared distance 9 < 100, i.e.
XZ distance 3 < 10.  The re-clamp breaks the claimed invariant. -/
theorem C1_counterexample :
    (LayoutEngine.build linOracle (fun _ => some tplBare) "bare" ⟨⟨10, 4, 10⟩⟩ []
        [mkEnemy "e1" "chase" ⟨1, 0, 0⟩] [] none).map
      (fun r => r.adjustedEnemies.map (fun e => distSqXZ e.transform.position r.playerSpawn))
      = some [9] ∧ ¬ (100 ≤ (9 : ℚ)) := by
  constructor
  · norm_num [LayoutEngine.build, tplBare, placeEnemies, placeEnemiesGo, placeOne,
      applyHint, findBestHint, enforceSpawnDistance, linOracle, toWorld, clampQ,
      mkEnemy, distSqXZ, generateCoverObjects, genCoversGo, tileWallLines, tileLinesGo,
      placePickups, placePickupsGo, generateDecorations, generateDecorationsGo,
      enforceDensity, removalIdxs]
    rw [regenerateBehaviorPaths_of_not_pathed]
    · norm_num
    all_goals decide
  · norm_num

-- ---------------------------------------------------------------------------
-- C1 — spawn-distance invariant: amended theorem
-- ---------------------------------------------------------------------------

/-- Clamping is the identity inside the clamp interval. -/
theorem clampQ_eq_self (h v : ℚ) (h1 : -h ≤ v) (h2 : v ≤ h) : clampQ (-h) h v = v := by
  unfold clampQ
  rw [min_eq_right h2, max_eq_right h1]

/-- Path regeneration never moves the enemy (it touches only behavior). -/
theorem regenerateBehaviorPaths_transform (M : MathOracle) (template : LayoutTemplateDef)
    (e : ShooterEnemy) : (regenerateBehaviorPaths M template e).transform = e.transform := by
  unfold regenerateBehaviorPaths
  split
  · dsimp only
    cases findNearestLane M template e.transform.position <;> rfl
  · rfl
  · rfl
  · rfl

/-- The spawn-distance enforcement step leaves every enemy at squared XZ
distance ≥ 100 from spawn, provided the oracle's square root respects the
10 threshold, its cos/sin pair is a unit vector, and the 12-unit circle
around spawn lies inside the clamp box. -/
theorem enforceSpawnDistance_far (M : MathOracle) (spawn : Vec3) (sX sZ : ℚ)
    (e : ShooterEnemy)
    (hsqrt : ∀ v, M.sqrt v < 10 ↔ v < 100)
    (hunit : ∀ a, M.cos a ^ 2 + M.sin a ^ 2 = 1)
    (hX : 12 + |spawn.x| ≤ sX / 2 - 2)
    (hZ : 12 + |spawn.z| ≤ sZ / 2 - 2) :
    100 ≤ distSqXZ (enforceSpawnDistance M spawn sX sZ e).transform.position spawn := by
  simp only [enforceSpawnDistance, distSqXZ]
  split_ifs with hlt
  · dsimp only
    set p := e.transform.position with hp
    set a := M.atan2 (p.z - spawn.z) (p.x - spawn.x) with ha
    have hc2 : M.cos a ^ 2 ≤ 1 := by nlinarith [sq_nonneg (M.sin a), hunit a]
    have hs2 : M.sin a ^ 2 ≤ 1 := by nlinarith [sq_nonneg (M.cos a), hunit a]
    have hc := abs_le.mp ((sq_le_one_iff_abs_le_one (M.cos a)).mp hc2)
    have hs := abs_le.mp ((sq_le_one_iff_abs_le_one (M.sin a)).mp hs2)
    have hxa := abs_le.mp (le_refl |spawn.x|)
    have hza := abs_le.mp (le_refl |spawn.z|)
    have hx1 : -(sX / 2 - 2) ≤ spawn.x + M.cos a * 12 := by nlinarith
    have hx2 : spawn.x + M.cos a * 12 ≤ sX / 2 - 2 := by nlinarith
    have hz1 : -(sZ / 2 - 2) ≤ spawn.z + M.sin a * 12 := by nlinarith
    have hz2 : spawn.z + M.sin a * 12 ≤ sZ / 2 - 2 := by nlinarith
    simp only [clampQ_eq_self _ _ hx1 hx2, clampQ_eq_self _ _ hz1 hz2]
    have h144 : (spawn.x + M.cos a * 12 - spawn.x) ^ 2 + (spawn.z + M.sin a * 12 - spawn.z) ^ 2
        = 144 := by
      have := hunit a
      ring_nf
      nlinarith [hunit a]
    rw [h144]
    norm_num
  · have h100 : ¬ ((e.transform.position.x - spawn.x) ^ 2
        + (e.transform.position.z - spawn.z) ^ 2 < 100) := fun hcon =>
      hlt ((hsqrt _).mpr hcon)
    exact not_lt.mp h100

/-- A successfully placed enemy is the path regeneration of the
spawn-distance enforcement of some enemy record. -/
theorem placeOne_shape (M : MathOracle) (template : LayoutTemplateDef) (spawn : Vec3)
    (sX sZ : ℚ) (used : ℕ → ℕ) (e e1 : ShooterEnemy) (used' : ℕ → ℕ)
    (h : placeOne M template spawn sX sZ used e = some (e1, used')) :
    ∃ e0, e1 = regenerateBehaviorPaths M template (enforceSpawnDistance M spawn sX sZ e0) := by
  unfold placeOne at h
  cases happ : applyHint template.enemyHints sX sZ used e with
  | none => rw [happ] at h; exact absurd h (by simp)
  | some pr =>
    obtain ⟨ea, ua⟩ := pr
    rw [happ] at h
    simp only [Option.some.injEq, Prod.mk.injEq] at h
    exact ⟨ea, h.1.symm⟩

/-- Every member of a successful `placeEnemiesGo` output has the
`placeOne` output shape. -/
theorem placeEnemiesGo_mem_shape (M : MathOracle) (template : LayoutTemplateDef)
    (spawn : Vec3) (sX sZ : ℚ) :
    ∀ (l : List ShooterEnemy) (used : ℕ → ℕ) (lres : List ShooterEnemy) (uf : ℕ → ℕ),
      placeEnemiesGo M template spawn sX sZ used l = some (lres, uf) →
      ∀ e1 ∈ lres,
        ∃ e0, e1 = regenerateBehaviorPaths M template (enforceSpawnDistance M spawn sX sZ e0) := by
  intro l
  induction l with
  | nil =>
    intro used lres uf h e1 hmem
    simp only [placeEnemiesGo, Option.some.injEq, Prod.mk.injEq] at h
    rw [← h.1] at hmem
    exact absurd hmem (by simp)
  | cons e rest ih =>
    intro used lres uf h e1 hmem
    rw [placeEnemiesGo] at h
    cases hp : placeOne M template spawn sX sZ used e with
    | none => rw [hp] at h; exact absurd h (by simp)
    | some pr =>
      obtain ⟨ehead, used'⟩ := pr
      rw [hp] at h
      dsimp only at h
      cases hrec : placeEnemiesGo M template spawn sX sZ used' rest with
      | none => rw [hrec] at h; exact absurd h (by simp)
      | some pr2 =>
        obtain ⟨ltail, uf2⟩ := pr2
        rw [hrec] at h
        simp only [Option.some.injEq, Prod.mk.injEq] at h
        rw [← h.1] at hmem
        rcases List.mem_cons.mp hmem with heq | htail
        · subst heq
          exact placeOne_shape M template spawn sX sZ used e e1 used' hp
        · exact ih used' ltail uf2 hrec e1 htail

/-- C1 (amended): for every template in the registry, arena, enemy list
and oracle whose square root respects the 10 threshold and whose cos/sin
form a unit vector, if the arena is large enough that the 12-unit circle
around the player spawn fits inside the bounds-minus-2 m clamp box, then
every enemy in `adjustedEnemies` of the result of `LayoutEngine.build` is
at squared XZ distance ≥ 100 (i.e. XZ distance ≥ 10) from the returned
player spawn.  Without the fits-inside hypothesis the re-clamp can break
the invariant (see the counterexample). -/
theorem C1_spawn_distance_amended (M : MathOracle)
    (templates : String → Option LayoutTemplateDef) (templateName : String)
    (template : LayoutTemplateDef) (arena : Arena) (zones : List ArenaZone)
    (enemies : List ShooterEnemy) (pickups : List ShooterPickup) (theme : Option String)
    (res : LayoutResult)
    (hreg : templates templateName = some template)
    (hsqrt : ∀ v, M.sqrt v < 10 ↔ v < 100)
    (hunit : ∀ a, M.cos a ^ 2 + M.sin a ^ 2 = 1)
    (hX : 12 + |(template.playerSpawn.nx - 1/2) * arena.size.x| ≤ arena.size.x / 2 - 2)
    (hZ : 12 + |(template.playerSpawn.nz - 1/2) * arena.size.z| ≤ arena.size.z / 2 - 2)
    (hbuild : LayoutEngine.build M templates templateName arena zones enemies pickups theme
      = some res) :
    ∀ e ∈ res.adjustedEnemies, 100 ≤ distSqXZ e.transform.position res.playerSpawn := by
  intro e hmem
  rw [LayoutEngine.build, hreg] at hbuild
  simp only [toWorld] at hbuild
  cases hpe : placeEnemies M template enemies
      ⟨(template.playerSpawn.nx - 1/2) * arena.size.x, 0,
       (template.playerSpawn.nz - 1/2) * arena.size.z⟩ arena.size.x arena.size.z with
  | none => rw [hpe] at hbuild; exact absurd hbuild (by simp)
  | some pr =>
    obtain ⟨lres, uf⟩ := pr
    rw [hpe] at hbuild
    simp only [Option.some.injEq] at hbuild
    obtain ⟨e0, he0⟩ := placeEnemiesGo_mem_shape M template
      ⟨(template.playerSpawn.nx - 1/2) * arena.size.x, 0,
       (template.playerSpawn.nz - 1/2) * arena.size.z⟩ arena.size.x arena.size.z
      enemies (fun _ => 0) lres uf hpe e (by rw [← hbuild] at hmem; exact hmem)
    have hspawn : res.playerSpawn =
        ⟨(template.playerSpawn.nx - 1/2) * arena.size.x, 0,
         (template.playerSpawn.nz - 1/2) * arena.size.z⟩ := by rw [← hbuild]
    rw [hspawn, he0]
    unfold distSqXZ
    rw [show (regenerateBehaviorPaths M template (enforceSpawnDistance M
      ⟨(template.playerSpawn.nx - 1/2) * arena.size.x, 0,
       (template.playerSpawn.nz - 1/2) * arena.size.z⟩ arena.size.x arena.size.z e0)).transform
      = (enforceSpawnDistance M
      ⟨(template.playerSpawn.nx - 1/2) * arena.size.x, 0,
       (template.playerSpawn.nz - 1/2) * arena.size.z⟩ arena.size.x arena.size.z e0).transform
      from regenerateBehaviorPaths_transform _ _ _]
    exact enforceSpawnDistance_far M _ arena.size.x arena.size.z e0 hsqrt hunit hX hZ

/-- C1 witness: the amended theorem applied to a 40×40 arena with centered
spawn, where the hintless chase enemy at (1, 0) is repositioned to (12, 0)
and stays 12 units from spawn. -/
theorem C1_spawn_distance_amended_witness :
    ((fun (_ : String) => some tplBare) "bare" = some tplBare) ∧
    (∀ v, linOracle.sqrt v < 10 ↔ v < 100) ∧
    (∀ a, linOracle.cos a ^ 2 + linOracle.sin a ^ 2 = 1) ∧
    (12 + |(tplBare.playerSpawn.nx - 1/2) * (Arena.mk ⟨40, 4, 40⟩).size.x|
      ≤ (Arena.mk ⟨40, 4, 40⟩).size.x / 2 - 2) ∧
    (12 + |(tplBare.playerSpawn.nz - 1/2) * (Arena.mk ⟨40, 4, 40⟩).size.z|
      ≤ (Arena.mk ⟨40, 4, 40⟩).size.z / 2 - 2) ∧
    (LayoutEngine.build linOracle (fun _ => some tplBare) "bare" ⟨⟨40, 4, 40⟩⟩ []
        [mkEnemy "e1" "chase" ⟨1, 0, 0⟩] [] none = some
        { coverObjects := [], wallEntities := [],
          adjustedEnemies := [mkEnemy "e1" "chase" ⟨12, 0, 0⟩],
          adjustedPickups := [], decorations := [], playerSpawn := ⟨0, 0, 0⟩ }) ∧
    (∀ e ∈ (LayoutResult.mk [] [] [mkEnemy "e1" "chase" ⟨12, 0, 0⟩] [] []
        ⟨0, 0, 0⟩).adjustedEnemies,
      100 ≤ distSqXZ e.transform.position
        (LayoutResult.mk [] [] [mkEnemy "e1" "chase" ⟨12, 0, 0⟩] [] [] ⟨0, 0, 0⟩).playerSpawn) := by
  have hreg : (fun (_ : String) => some tplBare) "bare" = some tplBare := rfl
  have hsqrt : ∀ v, linOracle.sqrt v < 10 ↔ v < 100 := by
    intro v
    simp only [linOracle]
    constructor <;> intro h <;> linarith
  have hunit : ∀ a, linOracle.cos a ^ 2 + linOracle.sin a ^ 2 = 1 := by
    intro a
    norm_num [linOracle]
  have hX : 12 + |(tplBare.playerSpawn.nx - 1/2) * (Arena.mk ⟨40, 4, 40⟩).size.x|
      ≤ (Arena.mk ⟨40, 4, 40⟩).size.x / 2 - 2 := by norm_num [tplBare]
  have hZ : 12 + |(tplBare.playerSpawn.nz - 1/2) * (Arena.mk ⟨40, 4, 40⟩).size.z|
      ≤ (Arena.mk ⟨40, 4, 40⟩).size.z / 2 - 2 := by norm_num [tplBare]
  have hbuild : LayoutEngine.build linOracle (fun _ => some tplBare) "bare" ⟨⟨40, 4, 40⟩⟩ []
      [mkEnemy "e1" "chase" ⟨1, 0, 0⟩] [] none = some
      { coverObjects := [], wallEntities := [],
        adjustedEnemies := [mkEnemy "e1" "chase" ⟨12, 0, 0⟩],
        adjustedPickups := [], decorations := [], playerSpawn := ⟨0, 0, 0⟩ } := by
    norm_num [LayoutEngine.build, tplBare, placeEnemies, placeEnemiesGo, placeOne, applyHint,
      findBestHint, enforceSpawnDistance, linOracle, toWorld, clampQ, mkEnemy,
      generateCoverObjects, genCoversGo, tileWallLines, tileLinesGo, placePickups,
      placePickupsGo, generateDecorations, generateDecorationsGo, enforceDensity, removalIdxs]
    rw [regenerateBehaviorPaths_of_not_pathed]
    all_goals decide
  exact ⟨hreg, hsqrt, hunit, hX, hZ, hbuild,
    C1_spawn_distance_amended linOracle (fun _ => some tplBare) "bare" tplBare
      ⟨⟨40, 4, 40⟩⟩ [] [mkEnemy "e1" "chase" ⟨1, 0, 0⟩] [] none _ hreg hsqrt hunit hX hZ hbuild⟩

-- ---------------------------------------------------------------------------
-- C5 — density enforcement
-- ---------------------------------------------------------------------------

/-- Every asset footprint in the engine catalog (and the default) is
strictly positive. -/
theorem assetDims_footprint_pos (s : String) :
    0 < ((ASSET_DIMS s).getD ⟨1, 1, 1⟩).w * ((ASSET_DIMS s).getD ⟨1, 1, 1⟩).d := by
  unfold ASSET_DIMS
  split <;> norm_num

/-- Cover footprints are strictly positive. -/
theorem footprintOf_pos (c : CoverObject) : 0 < footprintOf c := by
  unfold footprintOf
  exact assetDims_footprint_pos _

/-- Footprint sums are nonnegative. -/
theorem footSum_nonneg (l : List CoverObject) : 0 ≤ (l.map footprintOf).sum := by
  induction l with
  | nil => simp
  | cons c rest ih =>
    simp only [List.map_cons, List.sum_cons]
    have := footprintOf_pos c
    linarith

/-- Indices collected by `removalIdxs` start at the running index. -/
theorem removalIdxs_ge (B : ℚ) :
    ∀ (l : List CoverObject) (i : ℕ) (tot : ℚ) (j : ℕ),
      j ∈ removalIdxs B l i tot → i ≤ j := by
  intro l
  induction l with
  | nil => intro i tot j h; simp [removalIdxs] at h
  | cons c rest ih =>
    intro i tot j h
    rw [removalIdxs] at h
    rcases List.mem_append.mp h with h1 | h2
    · by_cases hb : B < tot + footprintOf c
      · rw [if_pos hb] at h1
        simp at h1
        omega
      · rw [if_neg hb] at h1
        simp at h1
    · have := ih (i + 1) (tot + footprintOf c) j h2
      omega

/-- Once the running total is over budget, every remaining index is
collected for removal. -/
theorem removalIdxs_full (B : ℚ) :
    ∀ (l : List CoverObject) (i : ℕ) (tot : ℚ), B < tot →
      ∀ j, i ≤ j → j < i + l.length → j ∈ removalIdxs B l i tot := by
  intro l
  induction l with
  | nil => intro i tot hB j h1 h2; simp at h2; omega
  | cons c rest ih =>
    intro i tot hB j h1 h2
    rw [removalIdxs]
    have hb : B < tot + footprintOf c := by
      have := footprintOf_pos c
      linarith
    rw [if_pos hb]
    rcases Nat.eq_or_lt_of_le h1 with he | hlt
    · exact List.mem_append.mpr (Or.inl (by simp [he.symm]))
    · refine List.mem_append.mpr (Or.inr ?_)
      refine ih (i + 1) (tot + footprintOf c) hb j hlt ?_
      simp only [List.length_cons] at h2
      omega

/-- Index bounds for members of `List.enumFrom`. -/
theorem mem_enumFrom_bounds {α : Type} {n : ℕ} {p : ℕ × α} {l : List α}
    (h : p ∈ l.enumFrom n) : n ≤ p.1 ∧ p.1 < n + l.length := by
  obtain ⟨i, x⟩ := p
  rw [List.mk_mem_enumFrom_iff_le_and_getElem?_sub] at h
  obtain ⟨h1, h2⟩ := h
  obtain ⟨hlt, -⟩ := List.getElem?_eq_some.mp h2
  exact ⟨h1, by omega⟩

/-- The mark-and-splice loop of `enforceDensity` keeps exactly the longest
under-budget prefix (the `densityKeep` count). -/
theorem enforceDensity_go_eq (B : ℚ) :
    ∀ (l : List CoverObject) (i : ℕ) (tot : ℚ),
      ((l.enumFrom i).filter (fun p => !((removalIdxs B l i tot).contains p.1))).map Prod.snd
        = l.take (densityKeep B l tot) := by
  intro l
  induction l with
  | nil => intro i tot; simp [removalIdxs, densityKeep]
  | cons c rest ih =>
    intro i tot
    by_cases hb : B < tot + footprintOf c
    · rw [densityKeep, if_pos hb, List.take_zero]
      have hall : ∀ p ∈ (c :: rest).enumFrom i,
          ¬ ((!((removalIdxs B (c :: rest) i tot).contains p.1)) = true) := by
        intro p hp
        have hrange := mem_enumFrom_bounds hp
        have hmem : p.1 ∈ removalIdxs B (c :: rest) i tot := by
          rw [removalIdxs, if_pos hb]
          rcases Nat.eq_or_lt_of_le hrange.1 with he | hlt
          · exact List.mem_append.mpr (Or.inl (by simp [he.symm]))
          · refine List.mem_append.mpr (Or.inr ?_)
            refine removalIdxs_full B rest (i + 1) (tot + footprintOf c) hb p.1 hlt ?_
            simp only [List.length_cons] at hrange
            omega
        simp [List.contains] at hmem ⊢
        exact hmem
      rw [List.filter_eq_nil_iff.mpr hall]
      rfl
    · rw [densityKeep, if_neg hb, Nat.add_comm 1 _, List.take_succ_cons]
      have hremeq : removalIdxs B (c :: rest) i tot
          = removalIdxs B rest (i + 1) (tot + footprintOf c) := by
        rw [removalIdxs, if_neg hb]
        simp
      have hhead : ((removalIdxs B (c :: rest) i tot).contains i) = false := by
        rw [hremeq]
        have hnot : i ∉ removalIdxs B rest (i + 1) (tot + footprintOf c) := fun hmem => by
          have := removalIdxs_ge B rest (i + 1) (tot + footprintOf c) i hmem
          omega
        simpa [List.contains] using hnot
      rw [show (c :: rest).enumFrom i = (i, c) :: rest.enumFrom (i + 1) from rfl,
        List.filter_cons]
      simp only [hhead, Bool.not_false, if_true, List.map_cons]
      rw [show (fun (p : ℕ × CoverObject) =>
          !((removalIdxs B (c :: rest) i tot).contains p.1))
        = (fun p => !((removalIdxs B rest (i + 1) (tot + footprintOf c)).contains p.1)) from
        by funext p; rw [hremeq]]
      rw [ih (i + 1) (tot + footprintOf c)]

/-- `densityKeep` keeps at most the whole list. -/
theorem densityKeep_le_length (B : ℚ) :
    ∀ (l : List CoverObject) (tot : ℚ), densityKeep B l tot ≤ l.length := by
  intro l
  induction l with
  | nil => intro tot; simp [densityKeep]
  | cons c rest ih =>
    intro tot
    rw [densityKeep]
    split
    · simp
    · have := ih (tot + footprintOf c)
      simp only [List.length_cons]
      omega

/-- The kept prefix stays under budget. -/
theorem densityKeep_sum_le (B : ℚ) :
    ∀ (l : List CoverObject) (tot : ℚ), tot ≤ B →
      tot + ((l.take (densityKeep B l tot)).map footprintOf).sum ≤ B := by
  intro l
  induction l with
  | nil => intro tot h; simpa [densityKeep] using h
  | cons c rest ih =>
    intro tot h
    rw [densityKeep]
    split
    · simpa using h
    · rename_i hb
      rw [Nat.add_comm 1 _, List.take_succ_cons]
      simp only [List.map_cons, List.sum_cons]
      have := ih (tot + footprintOf c) (not_lt.mp hb)
      linarith

/-- No longer prefix stays under budget: `densityKeep` is maximal. -/
theorem densityKeep_maximal (B : ℚ) :
    ∀ (l : List CoverObject) (tot : ℚ) (m : ℕ), m ≤ l.length →
      tot + ((l.take m).map footprintOf).sum ≤ B → m ≤ densityKeep B l tot := by
  intro l
  induction l with
  | nil =>
    intro tot m hm _
    simp only [List.length_nil, Nat.le_zero] at hm
    simp [densityKeep, hm]
  | cons c rest ih =>
    intro tot m hm hsum
    cases m with
    | zero => omega
    | succ m0 =>
      rw [List.take_succ_cons] at hsum
      simp only [List.map_cons, List.sum_cons] at hsum
      have hnn : 0 ≤ ((rest.take m0).map footprintOf).sum := footSum_nonneg _
      have hfc : tot + footprintOf c ≤ B := by linarith
      rw [densityKeep, if_neg (not_lt.mpr hfc)]
      have hm0 : m0 ≤ rest.length := by
        simp only [List.length_cons] at hm
        omega
      have := ih (tot + footprintOf c) m0 hm0 (by linarith)
      omega

/-- C5: after `enforceDensity`, the sum of retained footprints is at most
`0.3 × arenaSizeX × arenaSizeZ`, and the retained objects are exactly the
longest prefix of the placement order whose cumulative footprint does not
exceed that budget (once the running total exceeds the budget, that object
and all later ones are spliced out).  Unknown asset ids default to a 1×1
footprint inside `footprintOf`, as in the source. -/
theorem C5_density_prefix (covers : List CoverObject) (arenaX arenaZ : ℚ)
    (h : 0 ≤ arenaX * arenaZ) :
    ((enforceDensity covers arenaX arenaZ).map footprintOf).sum ≤ arenaX * arenaZ * (3/10) ∧
    enforceDensity covers arenaX arenaZ
      = covers.take (densityKeep (arenaX * arenaZ * (3/10)) covers 0) ∧
    densityKeep (arenaX * arenaZ * (3/10)) covers 0 ≤ covers.length ∧
    ∀ m, m ≤ covers.length →
      ((covers.take m).map footprintOf).sum ≤ arenaX * arenaZ * (3/10) →
      m ≤ densityKeep (arenaX * arenaZ * (3/10)) covers 0 := by
  have hB : (0 : ℚ) ≤ arenaX * arenaZ * (3/10) := by
    have h310 : (0 : ℚ) ≤ 3/10 := by norm_num
    exact mul_nonneg h h310
  have heq : enforceDensity covers arenaX arenaZ
      = covers.take (densityKeep (arenaX * arenaZ * (3/10)) covers 0) := by
    simp only [enforceDensity]
    rw [show covers.enum = covers.enumFrom 0 from rfl]
    exact enforceDensity_go_eq _ covers 0 0
  refine ⟨?_, heq, densityKeep_le_length _ covers 0,
    fun m hm hsum => densityKeep_maximal _ covers 0 m hm (by simpa using hsum)⟩
  rw [heq]
  have := densityKeep_sum_le (arenaX * arenaZ * (3/10)) covers 0 hB
  linarith

/-- C5 witness: a 2×2 arena (budget 1.2 m²) with three 1×1 covers keeps
exactly the first one. -/
theorem C5_density_prefix_witness :
    (0 ≤ (2 : ℚ) * 2) ∧
    (((enforceDensity [mkCover "c0" 0 0 none, mkCover "c1" 0 0 none, mkCover "c2" 0 0 none]
        2 2).map footprintOf).sum ≤ 2 * 2 * (3/10) ∧
    enforceDensity [mkCover "c0" 0 0 none, mkCover "c1" 0 0 none, mkCover "c2" 0 0 none] 2 2
      = [mkCover "c0" 0 0 none, mkCover "c1" 0 0 none, mkCover "c2" 0 0 none].take
          (densityKeep (2 * 2 * (3/10))
            [mkCover "c0" 0 0 none, mkCover "c1" 0 0 none, mkCover "c2" 0 0 none] 0) ∧
    densityKeep (2 * 2 * (3/10))
        [mkCover "c0" 0 0 none, mkCover "c1" 0 0 none, mkCover "c2" 0 0 none] 0
      ≤ [mkCover "c0" 0 0 none, mkCover "c1" 0 0 none, mkCover "c2" 0 0 none].length ∧
    ∀ m, m ≤ [mkCover "c0" 0 0 none, mkCover "c1" 0 0 none, mkCover "c2" 0 0 none].length →
      (([mkCover "c0" 0 0 none, mkCover "c1" 0 0 none, mkCover "c2" 0 0 none].take m).map
        footprintOf).sum ≤ 2 * 2 * (3/10) →
      m ≤ densityKeep (2 * 2 * (3/10))
        [mkCover "c0" 0 0 none, mkCover "c1" 0 0 none, mkCover "c2" 0 0 none] 0) :=
  ⟨by norm_num,
   C5_density_prefix [mkCover "c0" 0 0 none, mkCover "c1" 0 0 none, mkCover "c2" 0 0 none]
     2 2 (by norm_num)⟩

-- ---------------------------------------------------------------------------
-- C3 — non-overlap of retained cover objects
-- ---------------------------------------------------------------------------

/-- AABB intersection is symmetric. -/
theorem aabbIntersects_symm (a b : AABB) : aabbIntersects a b = aabbIntersects b a := by
  unfold aabbIntersects
  by_cases h1 : a.minX < b.maxX <;> by_cases h2 : b.minX < a.maxX <;>
    by_cases h3 : a.minZ < b.maxZ <;> by_cases h4 : b.minZ < a.maxZ <;>
    simp [h1, h2, h3, h4]

/-- For every earlier/later pair of boxes that intersect, the later box's
id is collected by the overlap scan. -/
theorem overlapPairs_marks (l : List (String × AABB)) :
    l.Pairwise (fun a b => aabbIntersects a.2 b.2 = true → b.1 ∈ (overlapPairs l).map Prod.snd) := by
  induction l with
  | nil => exact List.Pairwise.nil
  | cons b rest ih =>
    rw [overlapPairs]
    constructor
    · intro c hc hint
      refine List.mem_map.mpr ⟨(b.1, c.1), ?_, rfl⟩
      refine List.mem_append.mpr (Or.inl ?_)
      exact List.mem_filterMap.mpr ⟨c, hc, by simp [hint]⟩
    · refine ih.imp ?_
      intro p q hpq hint
      rcases List.mem_map.mp (hpq hint) with ⟨pr, hpr, hsnd⟩
      exact List.mem_map.mpr ⟨pr, List.mem_append.mpr (Or.inr hpr), hsnd⟩

/-- C3: after `validateLayout`, any two distinct retained cover objects
have non-intersecting axis-aligned bounding boxes (boxes built from each
object's position and asset dimensions, exactly as the validator builds
them). -/
theorem C3_retained_covers_disjoint (covers : List CoverObject) (walls : List Entity)
    (arena : Arena) (spawn : Vec3) :
    ((validateLayout covers walls arena spawn).coverObjects).Pairwise
      (fun a b =>
        aabbIntersects (entityToAABB a.transform.position a.assetId)
          (entityToAABB b.transform.position b.assetId) = false ∧
        aabbIntersects (entityToAABB b.transform.position b.assetId)
          (entityToAABB a.transform.position a.assetId) = false) := by
  have hboxes := overlapPairs_marks (allBoxesOf covers walls)
  have hcovmap : (covers.map coverBox).Pairwise
      (fun a b => aabbIntersects a.2 b.2 = true
        → b.1 ∈ (overlapPairs (allBoxesOf covers walls)).map Prod.snd) := by
    refine hboxes.sublist ?_
    unfold allBoxesOf
    exact List.sublist_append_left _ _
  rw [List.pairwise_map] at hcovmap
  have hres : (validateLayout covers walls arena spawn).coverObjects
      = covers.filter
          (fun c => !((overlapIdsOf (allBoxesOf covers walls)).contains c.id)) := rfl
  rw [hres]
  have hfilt := hcovmap.filter
    (fun c => !((overlapIdsOf (allBoxesOf covers walls)).contains c.id))
  refine hfilt.imp_of_mem ?_
  intro a b hma hmb himp
  have hbkeep := (List.mem_filter.mp hmb).2
  have hbnot : b.id ∉ overlapIdsOf (allBoxesOf covers walls) := by
    intro hmem
    rw [Bool.not_eq_eq_eq_not, Bool.not_true] at hbkeep
    simp [List.contains] at hbkeep
    exact hbkeep hmem
  have hfwd : aabbIntersects (entityToAABB a.transform.position a.assetId)
      (entityToAABB b.transform.position b.assetId) = false := by
    by_contra hne
    have htrue : aabbIntersects (coverBox a).2 (coverBox b).2 = true := by
      unfold coverBox
      exact Bool.eq_true_of_ne_false (by simpa [coverBox] using hne)
    exact hbnot (himp htrue)
  refine ⟨hfwd, ?_⟩
  rw [aabbIntersects_symm]
  exact hfwd

-- ---------------------------------------------------------------------------
-- C9 — validateLayout frame effect
-- ---------------------------------------------------------------------------

/-- C9: `validateLayout`'s only mutation is the removal of overlap-marked
cover objects: the returned wall entity list, arena and player spawn are
the inputs unchanged (wall entities stay in the list even when
overlap-marked), a cover object survives exactly when its id was not
overlap-marked, and the reachability-grid and quadrant-density audits are
computed from the box list with *all* flagged boxes (cover and wall alike)
filtered out. -/
theorem C9_validate_frame (covers : List CoverObject) (walls : List Entity)
    (arena : Arena) (spawn : Vec3) :
    (validateLayout covers walls arena spawn).wallEntities = walls ∧
    (validateLayout covers walls arena spawn).arena = arena ∧
    (validateLayout covers walls arena spawn).playerSpawn = spawn ∧
    (∀ c, c ∈ (validateLayout covers walls arena spawn).coverObjects ↔
      (c ∈ covers ∧ c.id ∉ overlapIdsOf (allBoxesOf covers walls))) ∧
    (validateLayout covers walls arena spawn).issues
      = overlapIssues (allBoxesOf covers walls)
        ++ reachIssues ((allBoxesOf covers walls).filter
             (fun b => !((overlapIdsOf (allBoxesOf covers walls)).contains b.1)))
             arena.size.x arena.size.z spawn
        ++ densityIssues ((allBoxesOf covers walls).filter
             (fun b => !((overlapIdsOf (allBoxesOf covers walls)).contains b.1)))
             arena.size.x arena.size.z := by
  refine ⟨rfl, rfl, rfl, ?_, rfl⟩
  intro c
  constructor
  · intro hmem
    have := List.mem_filter.mp hmem
    refine ⟨this.1, ?_⟩
    intro hbad
    have hkeep := this.2
    simp [List.contains] at hkeep
    exact hkeep hbad
  · intro hc
    refine List.mem_filter.mpr ⟨hc.1, ?_⟩
    simp [List.contains]
    exact hc.2

-- ---------------------------------------------------------------------------
-- C7 — hint scoring and capacity
-- ---------------------------------------------------------------------------

/-- Scores are at least the base score 1. -/
theorem hintScore_ge_one (h : EnemyHint) (used : ℕ) (aiType : String) :
    1 ≤ hintScore h used aiType := by
  unfold hintScore
  split_ifs <;> norm_num

/-- Invariant of the `findBestHint` fold over the first `n` hint indices:
if no index was chosen, none of the first `n` is available; if index `b`
was chosen, it is available, its score is the running best and is maximal
among the first `n` available indices, strictly above every earlier
available index. -/
theorem fbh_fold_spec (hints : List EnemyHint) (used : ℕ → ℕ) (aiType : String) :
    ∀ n : ℕ,
      ((((List.range n).foldl (fbhStep hints used aiType) (none, -1)).1 = none →
        (∀ j, j < n → ¬ used j < (hints.getD j dfltEnemyHint).capacity) ∧
        ((List.range n).foldl (fbhStep hints used aiType) (none, -1)).2 = -1)) ∧
      (∀ b, ((List.range n).foldl (fbhStep hints used aiType) (none, -1)).1 = some b →
        b < n ∧ used b < (hints.getD b dfltEnemyHint).capacity ∧
        ((List.range n).foldl (fbhStep hints used aiType) (none, -1)).2
          = hintScore (hints.getD b dfltEnemyHint) (used b) aiType ∧
        (∀ j, j < n → used j < (hints.getD j dfltEnemyHint).capacity →
          hintScore (hints.getD j dfltEnemyHint) (used j) aiType
            ≤ hintScore (hints.getD b dfltEnemyHint) (used b) aiType) ∧
        (∀ j, j < b → used j < (hints.getD j dfltEnemyHint).capacity →
          hintScore (hints.getD j dfltEnemyHint) (used j) aiType
            < hintScore (hints.getD b dfltEnemyHint) (used b) aiType)) := by
  have fbhStep_eq : ∀ (acc : Option ℕ × ℤ) (i : ℕ),
      fbhStep hints used aiType acc i =
        if (hints.getD i dfltEnemyHint).capacity ≤ used i then acc
        else if acc.2 < hintScore (hints.getD i dfltEnemyHint) (used i) aiType
          then (some i, hintScore (hints.getD i dfltEnemyHint) (used i) aiType) else acc :=
    fun _ _ => rfl
  intro n
  induction n with
  | zero =>
    constructor
    · intro _
      exact ⟨fun j hj => absurd hj (by omega), rfl⟩
    · intro b hb
      simp [List.range_zero] at hb
  | succ n ih =>
    rw [List.range_succ, List.foldl_append, List.foldl_cons, List.foldl_nil]
    obtain ⟨ihnone, ihsome⟩ := ih
    rw [fbhStep_eq]
    by_cases hcap : (hints.getD n dfltEnemyHint).capacity ≤ used n
    · rw [if_pos hcap]
      constructor
      · intro hnone
        obtain ⟨hall, hval⟩ := ihnone hnone
        refine ⟨fun j hj => ?_, hval⟩
        rcases Nat.lt_succ_iff_lt_or_eq.mp hj with hlt | heq
        · exact hall j hlt
        · subst heq; omega
      · intro b hb
        obtain ⟨h1, h2, h3, h4, h5⟩ := ihsome b hb
        refine ⟨by omega, h2, h3, fun j hj hav => ?_, h5⟩
        rcases Nat.lt_succ_iff_lt_or_eq.mp hj with hlt | heq
        · exact h4 j hlt hav
        · subst heq; omega
    · rw [if_neg hcap]
      push_neg at hcap
      by_cases hbest : ((List.range n).foldl (fbhStep hints used aiType) (none, -1)).2
          < hintScore (hints.getD n dfltEnemyHint) (used n) aiType
      · rw [if_pos hbest]
        constructor
        · intro hnone; simp at hnone
        · intro b hb
          simp only [Option.some.injEq] at hb
          subst hb
          refine ⟨by omega, hcap, rfl, fun j hj hav => ?_, fun j hj hav => ?_⟩
          · rcases Nat.lt_succ_iff_lt_or_eq.mp hj with hlt | heq
            · cases hacc : ((List.range n).foldl (fbhStep hints used aiType) (none, -1)).1 with
              | none => exact absurd hav ((ihnone hacc).1 j hlt)
              | some b0 =>
                obtain ⟨_, _, h3, h4, _⟩ := ihsome b0 hacc
                have := h4 j hlt hav
                rw [h3] at hbest
                linarith
            · subst heq; exact le_refl _
          · cases hacc : ((List.range n).foldl (fbhStep hints used aiType) (none, -1)).1 with
            | none => exact absurd hav ((ihnone hacc).1 j hj)
            | some b0 =>
              obtain ⟨_, _, h3, h4, _⟩ := ihsome b0 hacc
              have := h4 j hj hav
              rw [h3] at hbest
              linarith
      · rw [if_neg hbest]
        constructor
        · intro hnone
          obtain ⟨hall, hval⟩ := ihnone hnone
          rw [hval] at hbest
          have := hintScore_ge_one (hints.getD n dfltEnemyHint) (used n) aiType
          omega
        · intro b hb
          obtain ⟨h1, h2, h3, h4, h5⟩ := ihsome b hb
          rw [h3] at hbest
          push_neg at hbest
          refine ⟨by omega, h2, h3, fun j hj hav => ?_, h5⟩
          rcases Nat.lt_succ_iff_lt_or_eq.mp hj with hlt | heq
          · exact h4 j hlt hav
          · subst heq; exact hbest

/-- `some` results of `findBestHint` are in range, have remaining
capacity, and maximize the score with first-wins tie-breaking. -/
theorem findBestHint_spec (hints : List EnemyHint) (used : ℕ → ℕ) (aiType : String)
    (i : ℕ) (h : findBestHint hints used aiType = some i) :
    i < hints.length ∧ used i < (hints.getD i dfltEnemyHint).capacity ∧
    (∀ j, j < hints.length → used j < (hints.getD j dfltEnemyHint).capacity →
      hintScore (hints.getD j dfltEnemyHint) (used j) aiType
        ≤ hintScore (hints.getD i dfltEnemyHint) (used i) aiType) ∧
    (∀ j, j < i → used j < (hints.getD j dfltEnemyHint).capacity →
      hintScore (hints.getD j dfltEnemyHint) (used j) aiType
        < hintScore (hints.getD i dfltEnemyHint) (used i) aiType) := by
  obtain ⟨h1, h2, _, h4, h5⟩ := (fbh_fold_spec hints used aiType hints.length).2 i h
  exact ⟨h1, h2, h4, h5⟩

/-- A `none` result of `findBestHint` means no hint has capacity left. -/
theorem findBestHint_none (hints : List EnemyHint) (used : ℕ → ℕ) (aiType : String)
    (h : findBestHint hints used aiType = none) :
    ∀ j, j < hints.length → ¬ used j < (hints.getD j dfltEnemyHint).capacity :=
  ((fbh_fold_spec hints used aiType hints.length).1 h).1

/-- A hint assignment respects per-hint capacities. -/
theorem applyHint_capacity (hints : List EnemyHint) (sX sZ : ℚ) (used : ℕ → ℕ)
    (e e' : ShooterEnemy) (used' : ℕ → ℕ)
    (h : applyHint hints sX sZ used e = some (e', used'))
    (hinv : ∀ i, used i ≤ (hints.getD i dfltEnemyHint).capacity) :
    ∀ i, used' i ≤ (hints.getD i dfltEnemyHint).capacity := by
  unfold applyHint at h
  cases hfb : findBestHint hints used e.behavior.aiType with
  | none =>
    rw [hfb] at h
    simp only [Option.some.injEq, Prod.mk.injEq] at h
    rw [← h.2]
    exact hinv
  | some j =>
    rw [hfb] at h
    dsimp only at h
    obtain ⟨-, hj2, -, -⟩ := findBestHint_spec hints used e.behavior.aiType j hfb
    by_cases hlen : (hints.getD j dfltEnemyHint).offsets.length = 0
    · rw [if_pos hlen] at h
      exact absurd h (by simp)
    · rw [if_neg hlen] at h
      simp only [Option.some.injEq, Prod.mk.injEq] at h
      intro i
      rw [← h.2]
      by_cases hij : i = j
      · subst hij
        rw [Function.update_same]
        omega
      · rw [Function.update_noteq hij]
        exact hinv i

/-- `placeOne` respects per-hint capacities. -/
theorem placeOne_capacity (M : MathOracle) (template : LayoutTemplateDef) (spawn : Vec3)
    (sX sZ : ℚ) (used : ℕ → ℕ) (e e' : ShooterEnemy) (used' : ℕ → ℕ)
    (h : placeOne M template spawn sX sZ used e = some (e', used'))
    (hinv : ∀ i, used i ≤ (template.enemyHints.getD i dfltEnemyHint).capacity) :
    ∀ i, used' i ≤ (template.enemyHints.getD i dfltEnemyHint).capacity := by
  unfold placeOne at h
  cases happ : applyHint template.enemyHints sX sZ used e with
  | none => rw [happ] at h; exact absurd h (by simp)
  | some pr =>
    obtain ⟨ea, ua⟩ := pr
    rw [happ] at h
    simp only [Option.some.injEq, Prod.mk.injEq] at h
    rw [← h.2]
    exact applyHint_capacity _ _ _ _ _ _ _ happ hinv

/-- The enemy loop preserves the capacity invariant to the final map. -/
theorem placeEnemiesGo_capacity (M : MathOracle) (template : LayoutTemplateDef)
    (spawn : Vec3) (sX sZ : ℚ) :
    ∀ (l : List ShooterEnemy) (used : ℕ → ℕ) (lres : List ShooterEnemy) (uf : ℕ → ℕ),
      placeEnemiesGo M template spawn sX sZ used l = some (lres, uf) →
      (∀ i, used i ≤ (template.enemyHints.getD i dfltEnemyHint).capacity) →
      ∀ i, uf i ≤ (template.enemyHints.getD i dfltEnemyHint).capacity := by
  intro l
  induction l with
  | nil =>
    intro used lres uf h hinv
    simp only [placeEnemiesGo, Option.some.injEq, Prod.mk.injEq] at h
    rw [← h.2]
    exact hinv
  | cons e rest ih =>
    intro used lres uf h hinv
    rw [placeEnemiesGo] at h
    cases hp : placeOne M template spawn sX sZ used e with
    | none => rw [hp] at h; exact absurd h (by simp)
    | some pr =>
      obtain ⟨ehead, used'⟩ := pr
      rw [hp] at h
      dsimp only at h
      cases hrec : placeEnemiesGo M template spawn sX sZ used' rest with
      | none => rw [hrec] at h; exact absurd h (by simp)
      | some pr2 =>
        obtain ⟨ltail, uf2⟩ := pr2
        rw [hrec] at h
        simp only [Option.some.injEq, Prod.mk.injEq] at h
        rw [← h.2]
        exact ih used' ltail uf2 hrec
          (placeOne_capacity M template spawn sX sZ used e ehead used' hp hinv)

/-- C7: (a) `findBestHint` selects, among hints with remaining capacity,
the hint maximizing `score = 1 + 2·preferred + 1·unused`, breaking ties by
template order (every earlier available hint scores strictly less); (b) in
`placeEnemies`, no hint ever receives more direct assignments than its
declared capacity (the final `usedCapacity` count of every hint is at most
its capacity). -/
theorem C7_hint_scoring_and_capacity :
    (∀ (hints : List EnemyHint) (used : ℕ → ℕ) (aiType : String) (i : ℕ),
      findBestHint hints used aiType = some i →
        i < hints.length ∧ used i < (hints.getD i dfltEnemyHint).capacity ∧
        (∀ j, j < hints.length → used j < (hints.getD j dfltEnemyHint).capacity →
          hintScore (hints.getD j dfltEnemyHint) (used j) aiType
            ≤ hintScore (hints.getD i dfltEnemyHint) (used i) aiType) ∧
        (∀ j, j < i → used j < (hints.getD j dfltEnemyHint).capacity →
          hintScore (hints.getD j dfltEnemyHint) (used j) aiType
            < hintScore (hints.getD i dfltEnemyHint) (used i) aiType)) ∧
    (∀ (M : MathOracle) (template : LayoutTemplateDef) (enemies : List ShooterEnemy)
        (spawn : Vec3) (sX sZ : ℚ) (lres : List ShooterEnemy) (uf : ℕ → ℕ),
      placeEnemies M template enemies spawn sX sZ = some (lres, uf) →
      ∀ i, uf i ≤ (template.enemyHints.getD i dfltEnemyHint).capacity) := by
  constructor
  · exact findBestHint_spec
  · intro M template enemies spawn sX sZ lres uf h
    exact placeEnemiesGo_capacity M template spawn sX sZ enemies (fun _ => 0) lres uf h
      (fun i => Nat.zero_le _)

/-- C7 witness: both parts applied concretely — the scorer picks the
preferred second hint (score 4) over the first (score 2), and a one-enemy
run against the single capacity-2 hint ends with one assignment. -/
theorem C7_hint_scoring_and_capacity_witness :
    (findBestHint [⟨"north", [⟨0, 0⟩], ["patrol"], 1⟩, ⟨"south", [⟨1, 1⟩], ["guard"], 1⟩]
       (fun _ => 0) "guard" = some 1) ∧
    (1 < ([⟨"north", [⟨0, 0⟩], ["patrol"], 1⟩,
           ⟨"south", [⟨1, 1⟩], ["guard"], 1⟩] : List EnemyHint).length ∧
     (fun (_ : ℕ) => 0) 1 < (([⟨"north", [⟨0, 0⟩], ["patrol"], 1⟩,
           ⟨"south", [⟨1, 1⟩], ["guard"], 1⟩] : List EnemyHint).getD 1 dfltEnemyHint).capacity ∧
     (∀ j, j < ([⟨"north", [⟨0, 0⟩], ["patrol"], 1⟩,
           ⟨"south", [⟨1, 1⟩], ["guard"], 1⟩] : List EnemyHint).length →
        (fun (_ : ℕ) => 0) j < (([⟨"north", [⟨0, 0⟩], ["patrol"], 1⟩,
           ⟨"south", [⟨1, 1⟩], ["guard"], 1⟩] : List EnemyHint).getD j dfltEnemyHint).capacity →
        hintScore (([⟨"north", [⟨0, 0⟩], ["patrol"], 1⟩,
           ⟨"south", [⟨1, 1⟩], ["guard"], 1⟩] : List EnemyHint).getD j dfltEnemyHint)
            ((fun (_ : ℕ) => 0) j) "guard"
          ≤ hintScore (([⟨"north", [⟨0, 0⟩], ["patrol"], 1⟩,
           ⟨"south", [⟨1, 1⟩], ["guard"], 1⟩] : List EnemyHint).getD 1 dfltEnemyHint)
            ((fun (_ : ℕ) => 0) 1) "guard") ∧
     (∀ j, j < 1 →
        (fun (_ : ℕ) => 0) j < (([⟨"north", [⟨0, 0⟩], ["patrol"], 1⟩,
           ⟨"south", [⟨1, 1⟩], ["guard"], 1⟩] : List EnemyHint).getD j dfltEnemyHint).capacity →
        hintScore (([⟨"north", [⟨0, 0⟩], ["patrol"], 1⟩,
           ⟨"south", [⟨1, 1⟩], ["guard"], 1⟩] : List EnemyHint).getD j dfltEnemyHint)
            ((fun (_ : ℕ) => 0) j) "guard"
          < hintScore (([⟨"north", [⟨0, 0⟩], ["patrol"], 1⟩,
           ⟨"south", [⟨1, 1⟩], ["guard"], 1⟩] : List EnemyHint).getD 1 dfltEnemyHint)
            ((fun (_ : ℕ) => 0) 1) "guard")) ∧
    (placeEnemies linOracle tplOneHint [mkEnemy "e1" "chase" ⟨0, 0, 0⟩] ⟨0, 0, 12⟩ 30 30
      = some ([mkEnemy "e1" "chase" ⟨-9, 0, -9⟩], Function.update (fun _ => 0) 0 1)) ∧
    (∀ i, (Function.update (fun _ => 0) 0 1 : ℕ → ℕ) i
      ≤ (tplOneHint.enemyHints.getD i dfltEnemyHint).capacity) := by
  have hfb : findBestHint [⟨"north", [⟨0, 0⟩], ["patrol"], 1⟩,
      ⟨"south", [⟨1, 1⟩], ["guard"], 1⟩] (fun _ => 0) "guard" = some 1 := by decide
  have hpe : placeEnemies linOracle tplOneHint [mkEnemy "e1" "chase" ⟨0, 0, 0⟩]
      ⟨0, 0, 12⟩ 30 30
      = some ([mkEnemy "e1" "chase" ⟨-9, 0, -9⟩], Function.update (fun _ => 0) 0 1) := by
    norm_num [placeEnemies, placeEnemiesGo, placeOne, applyHint, findBestHint, fbhStep,
      hintScore, dfltEnemyHint, tplOneHint, mkEnemy, toWorld, clampQ, linOracle,
      enforceSpawnDistance, List.range_succ]
    rw [regenerateBehaviorPaths_of_not_pathed]
    all_goals decide
  exact ⟨hfb, C7_hint_scoring_and_capacity.1 _ _ _ _ hfb, hpe,
    C7_hint_scoring_and_capacity.2 linOracle tplOneHint [mkEnemy "e1" "chase" ⟨0, 0, 0⟩]
      ⟨0, 0, 12⟩ 30 30 _ _ hpe⟩

-- ---------------------------------------------------------------------------
-- C8 — overflow nudge scenario
-- ---------------------------------------------------------------------------

/-- C8 (code bug, failing input evaluated): template with one enemy hint
(1 offset, capacity 2) and two chase enemies in a 30×30 arena.  The first
enemy occupies the hint offset at (-9, -9); the second enemy is placed at
the *same* point with no perpendicular nudge, because the source computes
`overflow = max(0, used - offsets.length) = max(0, 1 - 1) = 0` for it — the
enemies stack exactly, contradicting the spec's scenario (second enemy at
the offset displaced by a 2 m perpendicular nudge) and the hint doc
comment ("extras offset perpendicular"). -/
theorem C8_overflow_nudge_bug :
    (LayoutEngine.build linOracle (fun _ => some tplOneHint) "onehint" ⟨⟨30, 4, 30⟩⟩ []
        [mkEnemy "e1" "chase" ⟨0, 0, 0⟩, mkEnemy "e2" "chase" ⟨0, 0, 0⟩] [] none).map
      (fun r => r.adjustedEnemies.map (fun e => e.transform.position))
      = some [⟨-9, 0, -9⟩, ⟨-9, 0, -9⟩] ∧
    distSqXZ ⟨-9, 0, -9⟩ ⟨-9, 0, -9⟩ = 0 ∧ ¬ ((2 : ℚ) * 2 ≤ 0) := by
  refine ⟨?_, by norm_num [distSqXZ], by norm_num⟩
  norm_num [LayoutEngine.build, tplOneHint, placeEnemies, placeEnemiesGo, placeOne,
    applyHint, findBestHint, fbhStep, hintScore, dfltEnemyHint, enforceSpawnDistance,
    linOracle, toWorld, clampQ, mkEnemy, generateCoverObjects, genCoversGo, tileWallLines,
    tileLinesGo, placePickups, placePickupsGo, generateDecorations, generateDecorationsGo,
    enforceDensity, removalIdxs, List.range_succ]
  rw [regenerateBehaviorPaths_of_not_pathed, regenerateBehaviorPaths_of_not_pathed]
  · norm_num
  all_goals decide

-- ---------------------------------------------------------------------------
-- C6 — wall-line tiling
-- ---------------------------------------------------------------------------

/-- Characterization of the segment loop: the emitted wall positions are
exactly those of the non-suppressed, in-bounds candidate indices, in
order. -/
theorem tileLoop_spec (sX sZ : ℚ) (startP : Pt2) (dirX dirZ actualStep gapRadius : ℚ)
    (gapPositions : List ℚ) (angle : ℚ) (assetId : String) (dims : Dims3) :
    ∀ (l : List ℕ) (idx : ℕ),
      ((tileLoop sX sZ startP dirX dirZ actualStep gapRadius gapPositions angle assetId dims
          l idx).1).map (fun e => e.transform.position)
        = (l.filter (fun (i : ℕ) =>
            (!gapPositions.any (fun gp => |((i : ℚ) + 1/2) * actualStep - gp| < gapRadius))
            && inBounds sX sZ (startP.x + dirX * (((i : ℚ) + 1/2) * actualStep))
                 (startP.z + dirZ * (((i : ℚ) + 1/2) * actualStep)))).map
            (fun (i : ℕ) => ⟨startP.x + dirX * (((i : ℚ) + 1/2) * actualStep), 0,
                       startP.z + dirZ * (((i : ℚ) + 1/2) * actualStep)⟩) := by
  intro l
  induction l with
  | nil => intro idx; rfl
  | cons i rest ih =>
    intro idx
    rw [tileLoop, List.filter_cons]
    by_cases hgap : (gapPositions.any
        (fun gp => |((i : ℚ) + 1/2) * actualStep - gp| < gapRadius)) = true
    · rw [if_pos hgap]
      rw [show ((!gapPositions.any
            (fun gp => |((i : ℚ) + 1/2) * actualStep - gp| < gapRadius))
          && inBounds sX sZ (startP.x + dirX * (((i : ℚ) + 1/2) * actualStep))
               (startP.z + dirZ * (((i : ℚ) + 1/2) * actualStep))) = false from by
        rw [hgap]; rfl]
      rw [if_neg (by simp)]
      exact ih idx
    · have hgap' : (gapPositions.any
          (fun gp => |((i : ℚ) + 1/2) * actualStep - gp| < gapRadius)) = false :=
        Bool.eq_false_iff.mpr hgap
      rw [if_neg hgap]
      by_cases hib : (inBounds sX sZ (startP.x + dirX * (((i : ℚ) + 1/2) * actualStep))
          (startP.z + dirZ * (((i : ℚ) + 1/2) * actualStep))) = true
      · rw [if_pos hib]
        rw [show ((!gapPositions.any
              (fun gp => |((i : ℚ) + 1/2) * actualStep - gp| < gapRadius))
            && inBounds sX sZ (startP.x + dirX * (((i : ℚ) + 1/2) * actualStep))
                 (startP.z + dirZ * (((i : ℚ) + 1/2) * actualStep))) = true from by
          rw [hgap', hib]; rfl]
        rw [if_pos rfl, List.map_cons]
        exact congrArg₂ _ rfl (ih (idx + 1))
      · rw [if_neg hib]
        rw [show ((!gapPositions.any
              (fun gp => |((i : ℚ) + 1/2) * actualStep - gp| < gapRadius))
            && inBounds sX sZ (startP.x + dirX * (((i : ℚ) + 1/2) * actualStep))
                 (startP.z + dirZ * (((i : ℚ) + 1/2) * actualStep))) = false from by
          rw [hgap', Bool.eq_false_iff.mpr hib]; rfl]
        rw [if_neg (by simp)]
        exact ih idx

/-- C6: for every wall line of world length `L ≥ 0.1` (the source skips
shorter, degenerate lines as per the error-handling design) tiled with an
asset of width `w`: the tiler produces `segmentCount = max(1, round(L/w))`
candidate segments with centers at `(i + 0.5) × (L / segmentCount)` along
the line; it suppresses exactly those candidates whose center distance
lies within `0.6 × w` of some gap distance (`gap fraction × L`) and drops
out-of-bounds candidates; the emitted wall positions are exactly the
surviving candidates' positions along the line, in order, and no emitted
candidate's center is within `0.6 × w` of any gap distance. -/
theorem C6_wall_tiling (M : MathOracle) (sX sZ : ℚ) (wl : WallLine) (idx0 : ℕ) (L : ℚ)
    (hsq : M.sqrt
      (((toWorld sX sZ wl.lineEnd.nx wl.lineEnd.nz).x
          - (toWorld sX sZ wl.lineStart.nx wl.lineStart.nz).x) ^ 2
        + ((toWorld sX sZ wl.lineEnd.nx wl.lineEnd.nz).z
          - (toWorld sX sZ wl.lineStart.nx wl.lineStart.nz).z) ^ 2) = L)
    (hmin : ¬ (L < 1/10)) :
    let s := toWorld sX sZ wl.lineStart.nx wl.lineStart.nz
    let e := toWorld sX sZ wl.lineEnd.nx wl.lineEnd.nz
    let w := ((ASSET_DIMS wl.assetId).getD ⟨2, 2, 2/5⟩).w
    let n := (max 1 (jsRound (L / w))).toNat
    let center : ℕ → ℚ := fun i => ((i : ℚ) + 1/2) * (L / (n : ℚ))
    let keep : ℕ → Bool := fun i =>
      (!wl.gaps.any (fun g => |center i - g * L| < w * (3/5)))
        && inBounds sX sZ (s.x + (e.x - s.x) / L * center i)
             (s.z + (e.z - s.z) / L * center i)
    (((tileLine M sX sZ wl idx0).1).map (fun e2 => e2.transform.position)
      = ((List.range n).filter keep).map
          (fun i => ⟨s.x + (e.x - s.x) / L * center i, 0,
                     s.z + (e.z - s.z) / L * center i⟩))
    ∧ ∀ i ∈ (List.range n).filter keep, ∀ g ∈ wl.gaps,
        ¬ (|center i - g * L| < w * (3/5)) := by
  intro s e w n center keep
  constructor
  · simp only [tileLine]
    rw [hsq, if_neg hmin, tileLoop_spec]
    simp only [List.any_map]
    rfl
  · intro i hi g hg
    have hk2 : ((!wl.gaps.any (fun g => |center i - g * L| < w * (3/5)))
        && inBounds sX sZ (s.x + (e.x - s.x) / L * center i)
             (s.z + (e.z - s.z) / L * center i)) = true := (List.mem_filter.mp hi).2
    rcases (Bool.and_eq_true _ _).mp hk2 with ⟨h1, -⟩
    have hany : wl.gaps.any (fun g => |center i - g * L| < w * (3/5)) = false := by
      simpa using h1
    have := List.any_eq_false.mp hany g hg
    simpa using this

/-- C6 witness: the spec's scenario — a 10 m wall line (in a 20×20 arena),
2 m `kenney_wall` segments, one gap at fraction 0.5 — produces 5 candidate
segments of which exactly the one nearest the midpoint is suppressed,
leaving 4 wall entities. -/
theorem C6_wall_tiling_witness :
    (linOracle.sqrt
      (((toWorld 20 20 wl10.lineEnd.nx wl10.lineEnd.nz).x
          - (toWorld 20 20 wl10.lineStart.nx wl10.lineStart.nz).x) ^ 2
        + ((toWorld 20 20 wl10.lineEnd.nx wl10.lineEnd.nz).z
          - (toWorld 20 20 wl10.lineStart.nx wl10.lineStart.nz).z) ^ 2) = 10) ∧
    (¬ ((10 : ℚ) < 1/10)) ∧
    (let s := toWorld 20 20 wl10.lineStart.nx wl10.lineStart.nz
     let e := toWorld 20 20 wl10.lineEnd.nx wl10.lineEnd.nz
     let w := ((ASSET_DIMS wl10.assetId).getD ⟨2, 2, 2/5⟩).w
     let n := (max 1 (jsRound (10 / w))).toNat
     let center : ℕ → ℚ := fun i => ((i : ℚ) + 1/2) * (10 / (n : ℚ))
     let keep : ℕ → Bool := fun i =>
       (!wl10.gaps.any (fun g => |center i - g * 10| < w * (3/5)))
         && inBounds 20 20 (s.x + (e.x - s.x) / 10 * center i)
              (s.z + (e.z - s.z) / 10 * center i)
     (((tileLine linOracle 20 20 wl10 0).1).map (fun e2 => e2.transform.position)
       = ((List.range n).filter keep).map
           (fun i => ⟨s.x + (e.x - s.x) / 10 * center i, 0,
                      s.z + (e.z - s.z) / 10 * center i⟩))
     ∧ ∀ i ∈ (List.range n).filter keep, ∀ g ∈ wl10.gaps,
         ¬ (|center i - g * 10| < w * (3/5))) ∧
    (tileLine linOracle 20 20 wl10 0).1.length = 4 := by
  have hsq : linOracle.sqrt
      (((toWorld 20 20 wl10.lineEnd.nx wl10.lineEnd.nz).x
          - (toWorld 20 20 wl10.lineStart.nx wl10.lineStart.nz).x) ^ 2
        + ((toWorld 20 20 wl10.lineEnd.nx wl10.lineEnd.nz).z
          - (toWorld 20 20 wl10.lineStart.nx wl10.lineStart.nz).z) ^ 2) = 10 := by
    norm_num [toWorld, wl10, linOracle]
  have hmin : ¬ ((10 : ℚ) < 1/10) := by norm_num
  have hthm := C6_wall_tiling linOracle 20 20 wl10 0 10 hsq hmin
  refine ⟨hsq, hmin, hthm, ?_⟩
  have hlen : (tileLine linOracle 20 20 wl10 0).1.length
      = (((tileLine linOracle 20 20 wl10 0).1).map (fun e2 => e2.transform.position)).length :=
    (List.length_map _ _).symm
  rw [hlen, hthm.1]
  have hdims : ASSET_DIMS "kenney_wall" = some ⟨2, 2, 2/5⟩ := rfl
  have htn : (5 : ℤ).toNat = 5 := rfl
  norm_num [hdims, wl10, jsRound, toWorld, inBounds, margin, htn,
    List.range_succ, linOracle]

-- ---------------------------------------------------------------------------
-- C10 — enemies and pickups preserved one-to-one
-- ---------------------------------------------------------------------------

/-- `enemyFrameEq` is reflexive. -/
theorem enemyFrameEq_refl (e : ShooterEnemy) : enemyFrameEq e e := by
  unfold enemyFrameEq
  exact ⟨rfl, rfl, rfl, rfl, rfl, rfl, rfl, rfl, rfl, rfl, rfl, rfl, rfl, rfl⟩

/-- `enemyFrameEq` is transitive. -/
theorem enemyFrameEq_trans {a b c : ShooterEnemy}
    (h1 : enemyFrameEq a b) (h2 : enemyFrameEq b c) : enemyFrameEq a c := by
  unfold enemyFrameEq at h1 h2 ⊢
  obtain ⟨a1, a2, a3, a4, a5, a6, a7, a8, a9, a10, a11, a12, a13, a14⟩ := h1
  obtain ⟨b1, b2, b3, b4, b5, b6, b7, b8, b9, b10, b11, b12, b13, b14⟩ := h2
  exact ⟨a1.trans b1, a2.trans b2, a3.trans b3, a4.trans b4, a5.trans b5, a6.trans b6,
    a7.trans b7, a8.trans b8, a9.trans b9, a10.trans b10, a11.trans b11, a12.trans b12,
    a13.trans b13, a14.trans b14⟩

/-- The hint-assignment step changes at most the position. -/
theorem applyHint_frame (hints : List EnemyHint) (sX sZ : ℚ) (used : ℕ → ℕ)
    (e e1 : ShooterEnemy) (used' : ℕ → ℕ)
    (h : applyHint hints sX sZ used e = some (e1, used')) : enemyFrameEq e1 e := by
  unfold applyHint at h
  cases hfb : findBestHint hints used e.behavior.aiType with
  | none =>
    rw [hfb] at h
    simp only [Option.some.injEq, Prod.mk.injEq] at h
    rw [← h.1]
    exact enemyFrameEq_refl e
  | some j =>
    rw [hfb] at h
    dsimp only at h
    by_cases hlen : (hints.getD j dfltEnemyHint).offsets.length = 0
    · rw [if_pos hlen] at h
      exact absurd h (by simp)
    · rw [if_neg hlen] at h
      simp only [Option.some.injEq, Prod.mk.injEq] at h
      rw [← h.1]
      exact ⟨rfl, rfl, rfl, rfl, rfl, rfl, rfl, rfl, rfl, rfl, rfl, rfl, rfl, rfl⟩

/-- The spawn-distance step changes at most the position. -/
theorem enforceSpawnDistance_frame (M : MathOracle) (spawn : Vec3) (sX sZ : ℚ)
    (e : ShooterEnemy) : enemyFrameEq (enforceSpawnDistance M spawn sX sZ e) e := by
  simp only [enforceSpawnDistance]
  split_ifs with hlt
  · exact ⟨rfl, rfl, rfl, rfl, rfl, rfl, rfl, rfl, rfl, rfl, rfl, rfl, rfl, rfl⟩
  · exact enemyFrameEq_refl e

/-- Path regeneration changes at most the behavior-path fields. -/
theorem regenerateBehaviorPaths_frame (M : MathOracle) (template : LayoutTemplateDef)
    (e : ShooterEnemy) : enemyFrameEq (regenerateBehaviorPaths M template e) e := by
  unfold regenerateBehaviorPaths
  split
  · dsimp only
    cases findNearestLane M template e.transform.position <;>
      exact ⟨rfl, rfl, rfl, rfl, rfl, rfl, rfl, rfl, rfl, rfl, rfl, rfl, rfl, rfl⟩
  · exact ⟨rfl, rfl, rfl, rfl, rfl, rfl, rfl, rfl, rfl, rfl, rfl, rfl, rfl, rfl⟩
  · exact ⟨rfl, rfl, rfl, rfl, rfl, rfl, rfl, rfl, rfl, rfl, rfl, rfl, rfl, rfl⟩
  · exact enemyFrameEq_refl e

/-- One loop iteration of `placeEnemies` changes at most position and
behavior-path fields. -/
theorem placeOne_frame (M : MathOracle) (template : LayoutTemplateDef) (spawn : Vec3)
    (sX sZ : ℚ) (used : ℕ → ℕ) (e e1 : ShooterEnemy) (used' : ℕ → ℕ)
    (h : placeOne M template spawn sX sZ used e = some (e1, used')) : enemyFrameEq e1 e := by
  unfold placeOne at h
  cases happ : applyHint template.enemyHints sX sZ used e with
  | none => rw [happ] at h; exact absurd h (by simp)
  | some pr =>
    obtain ⟨ea, ua⟩ := pr
    rw [happ] at h
    simp only [Option.some.injEq, Prod.mk.injEq] at h
    rw [← h.1]
    exact enemyFrameEq_trans
      (enemyFrameEq_trans (regenerateBehaviorPaths_frame M template _)
        (enforceSpawnDistance_frame M spawn sX sZ ea))
      (applyHint_frame template.enemyHints sX sZ used e ea ua happ)

/-- The enemy loop preserves every enemy one-to-one, in order, with only
position/path fields changed. -/
theorem placeEnemiesGo_forall2 (M : MathOracle) (template : LayoutTemplateDef)
    (spawn : Vec3) (sX sZ : ℚ) :
    ∀ (l : List ShooterEnemy) (used : ℕ → ℕ) (lres : List ShooterEnemy) (uf : ℕ → ℕ),
      placeEnemiesGo M template spawn sX sZ used l = some (lres, uf) →
      List.Forall₂ enemyFrameEq lres l := by
  intro l
  induction l with
  | nil =>
    intro used lres uf h
    simp only [placeEnemiesGo, Option.some.injEq, Prod.mk.injEq] at h
    rw [← h.1]
    exact List.Forall₂.nil
  | cons e rest ih =>
    intro used lres uf h
    rw [placeEnemiesGo] at h
    cases hp : placeOne M template spawn sX sZ used e with
    | none => rw [hp] at h; exact absurd h (by simp)
    | some pr =>
      obtain ⟨ehead, used'⟩ := pr
      rw [hp] at h
      dsimp only at h
      cases hrec : placeEnemiesGo M template spawn sX sZ used' rest with
      | none => rw [hrec] at h; exact absurd h (by simp)
      | some pr2 =>
        obtain ⟨ltail, uf2⟩ := pr2
        rw [hrec] at h
        simp only [Option.some.injEq, Prod.mk.injEq] at h
        rw [← h.1]
        exact List.Forall₂.cons
          (placeOne_frame M template spawn sX sZ used e ehead used' hp)
          (ih used' ltail uf2 hrec)

/-- The pickup loop preserves every pickup one-to-one, in order, with only
the position changed. -/
theorem placePickupsGo_forall2 (sX sZ : ℚ) (hints : List PickupHint) :
    ∀ (l : List ShooterPickup) (used : List ℕ),
      List.Forall₂ pickupFrameEq (placePickupsGo sX sZ hints used l) l := by
  intro l
  induction l with
  | nil => intro used; exact List.Forall₂.nil
  | cons pk rest ih =>
    intro used
    rw [placePickupsGo]
    cases findBestPickupHint hints used pk.ptype with
    | none => exact List.Forall₂.cons ⟨rfl, rfl, rfl, rfl⟩ (ih used)
    | some i => exact List.Forall₂.cons ⟨rfl, rfl, rfl, rfl⟩ (ih (i :: used))

/-- Pointwise frame-equal lists have equal field maps. -/
theorem forall2_map_eq {α : Type} {R : α → α → Prop} {f : α → String}
    (hf : ∀ a b, R a b → f a = f b) :
    ∀ {l1 l2 : List α}, List.Forall₂ R l1 l2 → l1.map f = l2.map f := by
  intro l1 l2 h
  induction h with
  | nil => rfl
  | cons hab _ ihm => simp only [List.map_cons, hf _ _ hab, ihm]

/-- C10: for a known template, `build` never drops or adds an enemy or
pickup: `adjustedEnemies`/`adjustedPickups` correspond one-to-one and in
order to the inputs, with the same ids, and with only the world position
and behavior-path fields changed.  (The source deep-copies the caller's
arrays before mutating; the pure model returns new lists and leaves the
inputs untouched by construction.) -/
theorem C10_enemy_pickup_preservation (M : MathOracle)
    (templates : String → Option LayoutTemplateDef) (templateName : String)
    (template : LayoutTemplateDef) (arena : Arena) (zones : List ArenaZone)
    (enemies : List ShooterEnemy) (pickups : List ShooterPickup) (theme : Option String)
    (res : LayoutResult)
    (hreg : templates templateName = some template)
    (hbuild : LayoutEngine.build M templates templateName arena zones enemies pickups theme
      = some res) :
    List.Forall₂ enemyFrameEq res.adjustedEnemies enemies ∧
    res.adjustedEnemies.length = enemies.length ∧
    res.adjustedEnemies.map ShooterEnemy.id = enemies.map ShooterEnemy.id ∧
    List.Forall₂ pickupFrameEq res.adjustedPickups pickups ∧
    res.adjustedPickups.length = pickups.length ∧
    res.adjustedPickups.map ShooterPickup.id = pickups.map ShooterPickup.id := by
  rw [LayoutEngine.build, hreg] at hbuild
  simp only [toWorld] at hbuild
  cases hpe : placeEnemies M template enemies
      ⟨(template.playerSpawn.nx - 1/2) * arena.size.x, 0,
       (template.playerSpawn.nz - 1/2) * arena.size.z⟩ arena.size.x arena.size.z with
  | none => rw [hpe] at hbuild; exact absurd hbuild (by simp)
  | some pr =>
    obtain ⟨lres, uf⟩ := pr
    rw [hpe] at hbuild
    simp only [Option.some.injEq] at hbuild
    have henemies : res.adjustedEnemies = lres := by rw [← hbuild]
    have hpickups : res.adjustedPickups
        = placePickups template pickups arena.size.x arena.size.z := by rw [← hbuild]
    have hf2 : List.Forall₂ enemyFrameEq res.adjustedEnemies enemies := by
      rw [henemies]
      exact placeEnemiesGo_forall2 M template _ arena.size.x arena.size.z enemies
        (fun _ => 0) lres uf hpe
    have hf2p : List.Forall₂ pickupFrameEq res.adjustedPickups pickups := by
      rw [hpickups]
      exact placePickupsGo_forall2 arena.size.x arena.size.z template.pickupHints pickups []
    exact ⟨hf2, hf2.length_eq,
      forall2_map_eq (fun a b hab => hab.1) hf2,
      hf2p, hf2p.length_eq,
      forall2_map_eq (fun a b hab => hab.1) hf2p⟩

/-- C10 witness: a concrete one-enemy, one-pickup run through `build`. -/
theorem C10_enemy_pickup_preservation_witness :
    ((fun (_ : String) => some tplOneHint) "onehint" = some tplOneHint) ∧
    (LayoutEngine.build linOracle (fun _ => some tplOneHint) "onehint" ⟨⟨30, 4, 30⟩⟩ []
        [mkEnemy "e1" "chase" ⟨0, 0, 0⟩] [mkPickup "p1" "health" ⟨7, 0, 7⟩] none = some
        { coverObjects := [], wallEntities := [],
          adjustedEnemies := [mkEnemy "e1" "chase" ⟨-9, 0, -9⟩],
          adjustedPickups := [mkPickup "p1" "health" ⟨7, 0, 7⟩],
          decorations := [], playerSpawn := ⟨0, 0, 12⟩ }) ∧
    (List.Forall₂ enemyFrameEq [mkEnemy "e1" "chase" ⟨-9, 0, -9⟩]
        [mkEnemy "e1" "chase" ⟨0, 0, 0⟩] ∧
     ([mkEnemy "e1" "chase" ⟨-9, 0, -9⟩] : List ShooterEnemy).length
       = ([mkEnemy "e1" "chase" ⟨0, 0, 0⟩] : List ShooterEnemy).length ∧
     [mkEnemy "e1" "chase" ⟨-9, 0, -9⟩].map ShooterEnemy.id
       = [mkEnemy "e1" "chase" ⟨0, 0, 0⟩].map ShooterEnemy.id ∧
     List.Forall₂ pickupFrameEq [mkPickup "p1" "health" ⟨7, 0, 7⟩]
        [mkPickup "p1" "health" ⟨7, 0, 7⟩] ∧
     ([mkPickup "p1" "health" ⟨7, 0, 7⟩] : List ShooterPickup).length
       = ([mkPickup "p1" "health" ⟨7, 0, 7⟩] : List ShooterPickup).length ∧
     [mkPickup "p1" "health" ⟨7, 0, 7⟩].map ShooterPickup.id
       = [mkPickup "p1" "health" ⟨7, 0, 7⟩].map ShooterPickup.id) := by
  have hreg : (fun (_ : String) => some tplOneHint) "onehint" = some tplOneHint := rfl
  have hbuild : LayoutEngine.build linOracle (fun _ => some tplOneHint) "onehint"
      ⟨⟨30, 4, 30⟩⟩ [] [mkEnemy "e1" "chase" ⟨0, 0, 0⟩] [mkPickup "p1" "health" ⟨7, 0, 7⟩]
      none = some
      { coverObjects := [], wallEntities := [],
        adjustedEnemies := [mkEnemy "e1" "chase" ⟨-9, 0, -9⟩],
        adjustedPickups := [mkPickup "p1" "health" ⟨7, 0, 7⟩],
        decorations := [], playerSpawn := ⟨0, 0, 12⟩ } := by
    norm_num [LayoutEngine.build, tplOneHint, placeEnemies, placeEnemiesGo, placeOne,
      applyHint, findBestHint, fbhStep, hintScore, dfltEnemyHint, enforceSpawnDistance,
      linOracle, toWorld, clampQ, mkEnemy, mkPickup, generateCoverObjects, genCoversGo,
      tileWallLines, tileLinesGo, placePickups, placePickupsGo, findBestPickupHint,
      generateDecorations, generateDecorationsGo, enforceDensity, removalIdxs,
      List.range_succ]
    rw [regenerateBehaviorPaths_of_not_pathed]
    all_goals first | decide | norm_num
  have hconc := C10_enemy_pickup_preservation linOracle (fun _ => some tplOneHint)
    "onehint" tplOneHint ⟨⟨30, 4, 30⟩⟩ [] [mkEnemy "e1" "chase" ⟨0, 0, 0⟩]
    [mkPickup "p1" "health" ⟨7, 0, 7⟩] none _ hreg hbuild
  exact ⟨hreg, hbuild, hconc⟩

-- ---------------------------------------------------------------------------
-- C4 — bounds
-- ---------------------------------------------------------------------------

/-- A passed `inBounds` check yields the margin bounds. -/
theorem inBounds_le (sX sZ x z : ℚ) (h : inBounds sX sZ x z = true) :
    |x| ≤ sX / 2 - margin ∧ |z| ≤ sZ / 2 - margin := by
  unfold inBounds at h
  rcases (Bool.and_eq_true _ _).mp h with ⟨h1, h2⟩
  exact ⟨le_of_lt (by simpa using h1), le_of_lt (by simpa using h2)⟩

/-- Every piece emitted by the cluster-piece loop passed `inBounds`. -/
theorem placePieces_inBounds (sX sZ : ℚ) (anchor : Pt2) (rot cosR sinR : ℚ) :
    ∀ (pieces : List ClusterPiece) (idx : ℕ),
      ∀ c ∈ (placePieces sX sZ anchor rot cosR sinR pieces idx).1,
        inBounds sX sZ c.transform.position.x c.transform.position.z = true := by
  intro pieces
  induction pieces with
  | nil => intro idx c hc; exact absurd hc (by simp [placePieces])
  | cons piece rest ih =>
    intro idx c hc
    rw [placePieces] at hc
    by_cases hib : inBounds sX sZ
        (anchor.x + (piece.dx * cosR - piece.dz * sinR))
        (anchor.z + (piece.dx * sinR + piece.dz * cosR)) = true
    · rw [if_pos hib] at hc
      dsimp only at hc
      rcases List.mem_cons.mp hc with heq | htail
      · subst heq; exact hib
      · exact ih (idx + 1) c htail
    · rw [if_neg hib] at hc
      exact ih idx c hc

/-- Every cover object from cluster generation passed `inBounds`. -/
theorem genCoversGo_inBounds (M : MathOracle) (sX sZ : ℚ) :
    ∀ (clusters : List CoverCluster) (idx : ℕ),
      ∀ c ∈ genCoversGo M sX sZ clusters idx,
        inBounds sX sZ c.transform.position.x c.transform.position.z = true := by
  intro clusters
  induction clusters with
  | nil => intro idx c hc; exact absurd hc (by simp [genCoversGo])
  | cons cluster rest ih =>
    intro idx c hc
    rw [genCoversGo] at hc
    dsimp only at hc
    rcases List.mem_append.mp hc with hl | hr
    · exact placePieces_inBounds sX sZ _ _ _ _ cluster.pieces idx c hl
    · exact ih _ c hr

/-- Every wall segment emitted by the segment loop passed `inBounds`. -/
theorem tileLoop_inBounds (sX sZ : ℚ) (startP : Pt2)
    (dirX dirZ actualStep gapRadius : ℚ) (gapPositions : List ℚ) (angle : ℚ)
    (assetId : String) (dims : Dims3) :
    ∀ (l : List ℕ) (idx : ℕ),
      ∀ e ∈ (tileLoop sX sZ startP dirX dirZ actualStep gapRadius gapPositions angle
          assetId dims l idx).1,
        inBounds sX sZ e.transform.position.x e.transform.position.z = true := by
  intro l
  induction l with
  | nil => intro idx e he; exact absurd he (by simp [tileLoop])
  | cons i rest ih =>
    intro idx e he
    rw [tileLoop] at he
    by_cases hgap : (gapPositions.any
        (fun gp => |((i : ℚ) + 1/2) * actualStep - gp| < gapRadius)) = true
    · rw [if_pos hgap] at he
      exact ih idx e he
    · rw [if_neg hgap] at he
      by_cases hib : (inBounds sX sZ (startP.x + dirX * (((i : ℚ) + 1/2) * actualStep))
          (startP.z + dirZ * (((i : ℚ) + 1/2) * actualStep))) = true
      · rw [if_pos hib] at he
        dsimp only at he
        rcases List.mem_cons.mp he with heq | htail
        · subst heq; exact hib
        · exact ih (idx + 1) e htail
      · rw [if_neg hib] at he
        exact ih idx e he

/-- Every wall entity of a tiled line passed `inBounds`. -/
theorem tileLine_inBounds (M : MathOracle) (sX sZ : ℚ) (wl : WallLine) (idx : ℕ) :
    ∀ e ∈ (tileLine M sX sZ wl idx).1,
      inBounds sX sZ e.transform.position.x e.transform.position.z = true := by
  intro e he
  rw [tileLine] at he
  split_ifs at he with hshort
  · exact absurd he (by simp)
  · exact tileLoop_inBounds sX sZ _ _ _ _ _ _ _ _ _ _ _ e he

/-- Every wall entity from wall-line tiling passed `inBounds`. -/
theorem tileLinesGo_inBounds (M : MathOracle) (sX sZ : ℚ) :
    ∀ (lines : List WallLine) (idx : ℕ),
      ∀ e ∈ tileLinesGo M sX sZ lines idx,
        inBounds sX sZ e.transform.position.x e.transform.position.z = true := by
  intro lines
  induction lines with
  | nil => intro idx e he; exact absurd he (by simp [tileLinesGo])
  | cons wl rest ih =>
    intro idx e he
    rw [tileLinesGo] at he
    dsimp only at he
    rcases List.mem_append.mp he with hl | hr
    · exact tileLine_inBounds M sX sZ wl idx e hl
    · exact ih _ e hr

/-- Every decoration passed `inBounds`. -/
theorem generateDecorationsGo_inBounds (sX sZ : ℚ) (theme : Option String) :
    ∀ (decs : List TemplateDecoration) (idx : ℕ),
      ∀ e ∈ generateDecorationsGo sX sZ theme decs idx,
        inBounds sX sZ e.transform.position.x e.transform.position.z = true := by
  intro decs
  induction decs with
  | nil => intro idx e he; exact absurd he (by simp [generateDecorationsGo])
  | cons dec rest ih =>
    intro idx e he
    rw [generateDecorationsGo.eq_def] at he
    dsimp only at he
    cases theme with
    | none =>
      rw [if_neg (by simp)] at he
      by_cases hib : (inBounds sX sZ (toWorld sX sZ dec.nx dec.nz).x
          (toWorld sX sZ dec.nx dec.nz).z) = true
      · rw [if_pos hib] at he
        rcases List.mem_cons.mp he with heq | htail
        · subst heq; exact hib
        · exact ih (idx + 1) e htail
      · rw [if_neg hib] at he
        exact ih idx e he
    | some th =>
      by_cases hfil : (if th = "" then false
          else if dec.themeTags.length = 0 then false
          else !(dec.themeTags.any (fun tag => strIncludes th.toLower tag))) = true
      · rw [if_pos hfil] at he
        exact ih idx e he
      · rw [if_neg hfil] at he
        by_cases hib : (inBounds sX sZ (toWorld sX sZ dec.nx dec.nz).x
            (toWorld sX sZ dec.nx dec.nz).z) = true
        · rw [if_pos hib] at he
          rcases List.mem_cons.mp he with heq | htail
          · subst heq; exact hib
          · exact ih (idx + 1) e htail
        · rw [if_neg hib] at he
          exact ih idx e he

/-- A symmetric clamp lands inside the band when the band is nonempty. -/
theorem clampQ_abs_le (h v : ℚ) (hh : 0 ≤ h) : |clampQ (-h) h v| ≤ h := by
  unfold clampQ
  rw [abs_le]
  exact ⟨le_max_left _ _, max_le (by linarith) (min_le_left _ _)⟩

/-- The hint step either clamps the position into the 2 m box or leaves it
unchanged. -/
theorem applyHint_pos (hints : List EnemyHint) (sX sZ : ℚ) (used : ℕ → ℕ)
    (e e1 : ShooterEnemy) (used' : ℕ → ℕ) (hsX : 4 ≤ sX) (hsZ : 4 ≤ sZ)
    (h : applyHint hints sX sZ used e = some (e1, used')) :
    (|e1.transform.position.x| ≤ sX / 2 - 2 ∧ |e1.transform.position.z| ≤ sZ / 2 - 2)
      ∨ e1.transform.position = e.transform.position := by
  unfold applyHint at h
  cases hfb : findBestHint hints used e.behavior.aiType with
  | none =>
    rw [hfb] at h
    simp only [Option.some.injEq, Prod.mk.injEq] at h
    right
    rw [← h.1]
  | some j =>
    rw [hfb] at h
    dsimp only at h
    by_cases hlen : (hints.getD j dfltEnemyHint).offsets.length = 0
    · rw [if_pos hlen] at h
      exact absurd h (by simp)
    · rw [if_neg hlen] at h
      simp only [Option.some.injEq, Prod.mk.injEq] at h
      left
      rw [← h.1]
      exact ⟨clampQ_abs_le _ _ (by linarith), clampQ_abs_le _ _ (by linarith)⟩

/-- The spawn-distance step either clamps the position into the 2 m box or
leaves it unchanged. -/
theorem enforceSpawnDistance_pos (M : MathOracle) (spawn : Vec3) (sX sZ : ℚ)
    (e : ShooterEnemy) (hsX : 4 ≤ sX) (hsZ : 4 ≤ sZ) :
    (|(enforceSpawnDistance M spawn sX sZ e).transform.position.x| ≤ sX / 2 - 2 ∧
     |(enforceSpawnDistance M spawn sX sZ e).transform.position.z| ≤ sZ / 2 - 2)
      ∨ (enforceSpawnDistance M spawn sX sZ e).transform.position = e.transform.position := by
  simp only [enforceSpawnDistance]
  split_ifs with hlt
  · left
    exact ⟨clampQ_abs_le _ _ (by linarith), clampQ_abs_le _ _ (by linarith)⟩
  · right
    rfl

/-- One enemy iteration: the final position is either inside the 2 m box
or exactly the caller-provided position. -/
theorem placeOne_pos (M : MathOracle) (template : LayoutTemplateDef) (spawn : Vec3)
    (sX sZ : ℚ) (used : ℕ → ℕ) (e e1 : ShooterEnemy) (used' : ℕ → ℕ)
    (hsX : 4 ≤ sX) (hsZ : 4 ≤ sZ)
    (h : placeOne M template spawn sX sZ used e = some (e1, used')) :
    (|e1.transform.position.x| ≤ sX / 2 - 2 ∧ |e1.transform.position.z| ≤ sZ / 2 - 2)
      ∨ e1.transform.position = e.transform.position := by
  unfold placeOne at h
  cases happ : applyHint template.enemyHints sX sZ used e with
  | none => rw [happ] at h; exact absurd h (by simp)
  | some pr =>
    obtain ⟨ea, ua⟩ := pr
    rw [happ] at h
    simp only [Option.some.injEq, Prod.mk.injEq] at h
    have hpos : e1.transform.position
        = (enforceSpawnDistance M spawn sX sZ ea).transform.position := by
      rw [← h.1, regenerateBehaviorPaths_transform]
    rcases enforceSpawnDistance_pos M spawn sX sZ ea hsX hsZ with hb | hu
    · left
      rw [hpos]
      exact hb
    · rcases applyHint_pos template.enemyHints sX sZ used e ea ua hsX hsZ happ with hb2 | hu2
      · left
        rw [hpos, hu]
        exact hb2
      · right
        rw [hpos, hu, hu2]

/-- Every placed enemy is inside the 2 m box or retains the position of
one of the input enemies. -/
theorem placeEnemiesGo_pos (M : MathOracle) (template : LayoutTemplateDef) (spawn : Vec3)
    (sX sZ : ℚ) (hsX : 4 ≤ sX) (hsZ : 4 ≤ sZ) :
    ∀ (l : List ShooterEnemy) (used : ℕ → ℕ) (lres : List ShooterEnemy) (uf : ℕ → ℕ),
      placeEnemiesGo M template spawn sX sZ used l = some (lres, uf) →
      ∀ e1 ∈ lres,
        (|e1.transform.position.x| ≤ sX / 2 - 2 ∧ |e1.transform.position.z| ≤ sZ / 2 - 2)
          ∨ ∃ e0 ∈ l, e1.transform.position = e0.transform.position := by
  intro l
  induction l with
  | nil =>
    intro used lres uf h e1 hmem
    simp only [placeEnemiesGo, Option.some.injEq, Prod.mk.injEq] at h
    rw [← h.1] at hmem
    exact absurd hmem (by simp)
  | cons e rest ih =>
    intro used lres uf h e1 hmem
    rw [placeEnemiesGo] at h
    cases hp : placeOne M template spawn sX sZ used e with
    | none => rw [hp] at h; exact absurd h (by simp)
    | some pr =>
      obtain ⟨ehead, used'⟩ := pr
      rw [hp] at h
      dsimp only at h
      cases hrec : placeEnemiesGo M template spawn sX sZ used' rest with
      | none => rw [hrec] at h; exact absurd h (by simp)
      | some pr2 =>
        obtain ⟨ltail, uf2⟩ := pr2
        rw [hrec] at h
        simp only [Option.some.injEq, Prod.mk.injEq] at h
        rw [← h.1] at hmem
        rcases List.mem_cons.mp hmem with heq | htail
        · subst heq
          rcases placeOne_pos M template spawn sX sZ used e e1 used' hsX hsZ hp with hb | hu
          · exact Or.inl hb
          · exact Or.inr ⟨e, List.mem_cons_self _ _, hu⟩
        · rcases ih used' ltail uf2 hrec e1 htail with hb | ⟨e0, he0, hp0⟩
          · exact Or.inl hb
          · exact Or.inr ⟨e0, List.mem_cons_of_mem _ he0, hp0⟩

/-- Every placed pickup is inside the 2 m box or retains the position of
one of the input pickups. -/
theorem placePickupsGo_pos (sX sZ : ℚ) (hints : List PickupHint)
    (hsX : 4 ≤ sX) (hsZ : 4 ≤ sZ) :
    ∀ (l : List ShooterPickup) (used : List ℕ),
      ∀ p ∈ placePickupsGo sX sZ hints used l,
        (|p.position.x| ≤ sX / 2 - 2 ∧ |p.position.z| ≤ sZ / 2 - 2)
          ∨ ∃ p0 ∈ l, p.position = p0.position := by
  intro l
  induction l with
  | nil => intro used p hp; exact absurd hp (by simp [placePickupsGo])
  | cons pk rest ih =>
    intro used p hp
    rw [placePickupsGo] at hp
    cases hfb : findBestPickupHint hints used pk.ptype with
    | none =>
      rw [hfb] at hp
      rcases List.mem_cons.mp hp with heq | htail
      · exact Or.inr ⟨pk, List.mem_cons_self _ _, by rw [heq]⟩
      · rcases ih used p htail with hb | ⟨p0, hp0, he0⟩
        · exact Or.inl hb
        · exact Or.inr ⟨p0, List.mem_cons_of_mem _ hp0, he0⟩
    | some i =>
      rw [hfb] at hp
      dsimp only at hp
      rcases List.mem_cons.mp hp with heq | htail
      · subst heq
        exact Or.inl ⟨clampQ_abs_le _ _ (by linarith), clampQ_abs_le _ _ (by linarith)⟩
      · rcases ih (i :: used) p htail with hb | ⟨p0, hp0, he0⟩
        · exact Or.inl hb
        · exact Or.inr ⟨p0, List.mem_cons_of_mem _ hp0, he0⟩

/-- C4 (counterexample): an enemy that matches no hint (the template has
none) and is at least 10 units from spawn keeps its caller-provided
position; at (1000, 0, 0) in a 20×20 arena, the adjusted enemy of the
(validated) result is far outside `arenaSizeX/2 − margin = 8.5`. -/
theorem C4_counterexample :
    (LayoutEngine.build linOracle (fun _ => some tplBare) "bare" ⟨⟨20, 4, 20⟩⟩ []
        [mkEnemy "e1" "chase" ⟨1000, 0, 0⟩] [] none).map
      (fun r => r.adjustedEnemies.map (fun e => e.transform.position.x))
      = some [1000] ∧ ¬ (|(1000 : ℚ)| ≤ 20 / 2 - margin) := by
  constructor
  · norm_num [LayoutEngine.build, tplBare, placeEnemies, placeEnemiesGo, placeOne,
      applyHint, findBestHint, enforceSpawnDistance, linOracle, toWorld, clampQ,
      mkEnemy, generateCoverObjects, genCoversGo, tileWallLines, tileLinesGo,
      placePickups, placePickupsGo, generateDecorations, generateDecorationsGo,
      enforceDensity, removalIdxs]
    rw [regenerateBehaviorPaths_of_not_pathed]
    all_goals first | decide | norm_num
  · norm_num [margin]

/-- C4 (amended): in a validated result, every cover object, wall entity
and decoration satisfies `|x| ≤ arenaSizeX/2 − margin` and
`|z| ≤ arenaSizeZ/2 − margin` with margin = 1.5 m; every adjusted enemy
and pickup either satisfies those bounds (indeed the tighter 2 m clamp) or
— when the engine could not place it (no hint assigned, and for enemies
no spawn-reposition either) — retains exactly the position of an input
enemy/pickup, which may be out of bounds.  Arena at least 4 m per axis so
the 2 m clamp box is nonempty. -/
theorem C4_bounds_amended (M : MathOracle)
    (templates : String → Option LayoutTemplateDef) (templateName : String)
    (template : LayoutTemplateDef) (arena : Arena) (zones : List ArenaZone)
    (enemies : List ShooterEnemy) (pickups : List ShooterPickup) (theme : Option String)
    (res : LayoutResult)
    (hreg : templates templateName = some template)
    (hsX : 4 ≤ arena.size.x) (hsZ : 4 ≤ arena.size.z)
    (hbuild : LayoutEngine.build M templates templateName arena zones enemies pickups theme
      = some res) :
    (∀ c ∈ (validateLayout res.coverObjects res.wallEntities arena res.playerSpawn).coverObjects,
      |c.transform.position.x| ≤ arena.size.x / 2 - margin ∧
      |c.transform.position.z| ≤ arena.size.z / 2 - margin) ∧
    (∀ w ∈ (validateLayout res.coverObjects res.wallEntities arena res.playerSpawn).wallEntities,
      |w.transform.position.x| ≤ arena.size.x / 2 - margin ∧
      |w.transform.position.z| ≤ arena.size.z / 2 - margin) ∧
    (∀ d ∈ res.decorations,
      |d.transform.position.x| ≤ arena.size.x / 2 - margin ∧
      |d.transform.position.z| ≤ arena.size.z / 2 - margin) ∧
    (∀ e1 ∈ res.adjustedEnemies,
      (|e1.transform.position.x| ≤ arena.size.x / 2 - margin ∧
       |e1.transform.position.z| ≤ arena.size.z / 2 - margin)
        ∨ ∃ e0 ∈ enemies, e1.transform.position = e0.transform.position) ∧
    (∀ p ∈ res.adjustedPickups,
      (|p.position.x| ≤ arena.size.x / 2 - margin ∧
       |p.position.z| ≤ arena.size.z / 2 - margin)
        ∨ ∃ p0 ∈ pickups, p.position = p0.position) := by
  rw [LayoutEngine.build, hreg] at hbuild
  simp only [toWorld] at hbuild
  cases hpe : placeEnemies M template enemies
      ⟨(template.playerSpawn.nx - 1/2) * arena.size.x, 0,
       (template.playerSpawn.nz - 1/2) * arena.size.z⟩ arena.size.x arena.size.z with
  | none => rw [hpe] at hbuild; exact absurd hbuild (by simp)
  | some pr =>
    obtain ⟨lres, uf⟩ := pr
    rw [hpe] at hbuild
    simp only [Option.some.injEq] at hbuild
    have hcov : res.coverObjects
        = enforceDensity (generateCoverObjects M template arena.size.x arena.size.z)
            arena.size.x arena.size.z := by rw [← hbuild]
    have hwall : res.wallEntities = tileWallLines M template arena.size.x arena.size.z := by
      rw [← hbuild]
    have hdec : res.decorations = generateDecorations template arena.size.x arena.size.z theme := by
      rw [← hbuild]
    have hen : res.adjustedEnemies = lres := by rw [← hbuild]
    have hpk : res.adjustedPickups
        = placePickups template pickups arena.size.x arena.size.z := by rw [← hbuild]
    have hmar : (2 : ℚ) ≥ margin := by norm_num [margin]
    refine ⟨?_, ?_, ?_, ?_, ?_⟩
    · intro c hc
      have hc2 : c ∈ res.coverObjects := (List.mem_filter.mp hc).1
      rw [hcov] at hc2
      have htake : enforceDensity (generateCoverObjects M template arena.size.x arena.size.z)
          arena.size.x arena.size.z
          = (generateCoverObjects M template arena.size.x arena.size.z).take
              (densityKeep (arena.size.x * arena.size.z * (3/10))
                (generateCoverObjects M template arena.size.x arena.size.z) 0) := by
        simp only [enforceDensity]
        rw [show (generateCoverObjects M template arena.size.x arena.size.z).enum
            = (generateCoverObjects M template arena.size.x arena.size.z).enumFrom 0 from rfl]
        exact enforceDensity_go_eq _ _ 0 0
      rw [htake] at hc2
      exact inBounds_le _ _ _ _
        (genCoversGo_inBounds M arena.size.x arena.size.z template.coverClusters 0 c
          (List.mem_of_mem_take hc2))
    · intro w hw
      have hw2 : w ∈ res.wallEntities := hw
      rw [hwall] at hw2
      exact inBounds_le _ _ _ _
        (tileLinesGo_inBounds M arena.size.x arena.size.z template.wallLines 0 w hw2)
    · intro d hd
      rw [hdec] at hd
      exact inBounds_le _ _ _ _
        (generateDecorationsGo_inBounds arena.size.x arena.size.z theme
          template.decorations 0 d hd)
    · intro e1 he1
      rw [hen] at he1
      rcases placeEnemiesGo_pos M template _ arena.size.x arena.size.z hsX hsZ enemies
          (fun _ => 0) lres uf hpe e1 he1 with ⟨hb1, hb2⟩ | hkeep
      · left
        constructor <;> [skip; skip] <;> linarith [hb1, hb2]
      · exact Or.inr hkeep
    · intro p hp
      rw [hpk] at hp
      rcases placePickupsGo_pos arena.size.x arena.size.z template.pickupHints hsX hsZ
          pickups [] p hp with ⟨hb1, hb2⟩ | hkeep
      · left
        constructor <;> linarith [hb1, hb2]
      · exact Or.inr hkeep

set_option maxRecDepth 4000 in
/-- C4 witness: the amended theorem applied to a concrete 30×30 run with
one hint-placed chase enemy and one unplaced pickup. -/
theorem C4_bounds_amended_witness :
    ((fun (_ : String) => some tplOneHint) "onehint" = some tplOneHint) ∧
    ((4 : ℚ) ≤ (Arena.mk ⟨30, 4, 30⟩).size.x) ∧
    ((4 : ℚ) ≤ (Arena.mk ⟨30, 4, 30⟩).size.z) ∧
    (LayoutEngine.build linOracle (fun _ => some tplOneHint) "onehint" ⟨⟨30, 4, 30⟩⟩ []
        [mkEnemy "e1" "chase" ⟨0, 0, 0⟩] [mkPickup "p1" "health" ⟨7, 0, 7⟩] none = some
        { coverObjects := [], wallEntities := [],
          adjustedEnemies := [mkEnemy "e1" "chase" ⟨-9, 0, -9⟩],
          adjustedPickups := [mkPickup "p1" "health" ⟨7, 0, 7⟩],
          decorations := [], playerSpawn := ⟨0, 0, 12⟩ }) ∧
    ((∀ c ∈ (validateLayout [] [] ⟨⟨30, 4, 30⟩⟩ ⟨0, 0, 12⟩).coverObjects,
      |c.transform.position.x| ≤ (30 : ℚ) / 2 - margin ∧
      |c.transform.position.z| ≤ (30 : ℚ) / 2 - margin) ∧
    (∀ w ∈ (validateLayout [] [] ⟨⟨30, 4, 30⟩⟩ ⟨0, 0, 12⟩).wallEntities,
      |w.transform.position.x| ≤ (30 : ℚ) / 2 - margin ∧
      |w.transform.position.z| ≤ (30 : ℚ) / 2 - margin) ∧
    (∀ d ∈ ([] : List Entity),
      |d.transform.position.x| ≤ (30 : ℚ) / 2 - margin ∧
      |d.transform.position.z| ≤ (30 : ℚ) / 2 - margin) ∧
    (∀ e1 ∈ [mkEnemy "e1" "chase" ⟨-9, 0, -9⟩],
      (|e1.transform.position.x| ≤ (30 : ℚ) / 2 - margin ∧
       |e1.transform.position.z| ≤ (30 : ℚ) / 2 - margin)
        ∨ ∃ e0 ∈ [mkEnemy "e1" "chase" ⟨0, 0, 0⟩],
            e1.transform.position = e0.transform.position) ∧
    (∀ p ∈ [mkPickup "p1" "health" ⟨7, 0, 7⟩],
      (|p.position.x| ≤ (30 : ℚ) / 2 - margin ∧
       |p.position.z| ≤ (30 : ℚ) / 2 - margin)
        ∨ ∃ p0 ∈ [mkPickup "p1" "health" ⟨7, 0, 7⟩], p.position = p0.position)) := by
  have hreg : (fun (_ : String) => some tplOneHint) "onehint" = some tplOneHint := rfl
  have hbuild : LayoutEngine.build linOracle (fun _ => some tplOneHint) "onehint"
      ⟨⟨30, 4, 30⟩⟩ [] [mkEnemy "e1" "chase" ⟨0, 0, 0⟩] [mkPickup "p1" "health" ⟨7, 0, 7⟩]
      none = some
      { coverObjects := [], wallEntities := [],
        adjustedEnemies := [mkEnemy "e1" "chase" ⟨-9, 0, -9⟩],
        adjustedPickups := [mkPickup "p1" "health" ⟨7, 0, 7⟩],
        decorations := [], playerSpawn := ⟨0, 0, 12⟩ } := by
    norm_num [LayoutEngine.build, tplOneHint, placeEnemies, placeEnemiesGo, placeOne,
      applyHint, findBestHint, fbhStep, hintScore, dfltEnemyHint, enforceSpawnDistance,
      linOracle, toWorld, clampQ, mkEnemy, mkPickup, generateCoverObjects, genCoversGo,
      tileWallLines, tileLinesGo, placePickups, placePickupsGo, findBestPickupHint,
      generateDecorations, generateDecorationsGo, enforceDensity, removalIdxs,
      List.range_succ]
    rw [regenerateBehaviorPaths_of_not_pathed]
    all_goals first | decide | norm_num
  exact ⟨hreg, by norm_num, by norm_num, hbuild,
    C4_bounds_amended linOracle (fun _ => some tplOneHint) "onehint" tplOneHint
      ⟨⟨30, 4, 30⟩⟩ [] [mkEnemy "e1" "chase" ⟨0, 0, 0⟩] [mkPickup "p1" "health" ⟨7, 0, 7⟩]
      none _ hreg (by norm_num) (by norm_num) hbuild⟩
